import Mathlib

/-!
Verification of the HTRevitTools pyRevit scripts.

Each section shallowly embeds one script's algorithmic core as executable
Lean definitions translated from the Python source, then proves or refutes
the specification claims about it.
-/

namespace HTRevit

/-! ## Identical Instances: grouping of duplicate-instance warnings

Source: `HT.tab/BIM Maintenance.panel/Identical Instances.pushbutton/script.py`,
lines 95-130.  Each warning carries exactly two failing element ids.  The
script keeps a set `checked_element_ids` and a list of groups
`grouped_warnings_ids`; element ids are modelled as `Nat`.
-/

/-- State of the grouping loop: the `checked_element_ids` set (as a list with
set semantics) and the `grouped_warnings_ids` list of groups. -/
structure GroupState where
  checked : List Nat
  groups : List (List Nat)
deriving Repr, DecidableEq

/-- Effect of one warning `(a, b)` on one existing group, from the inner
`for list in grouped_warnings_ids` loop: `add_element0` holds when
`element_ids[1]` (`b`) is in the group, `add_element1` when `element_ids[0]`
(`a`) is; `a` is appended first, then `b` is appended if it is not in the
possibly extended list. -/
def updGroup (a b : Nat) (g : List Nat) : List Nat :=
  let g1 := if b ∈ g ∧ a ∉ g then g ++ [a] else g
  if a ∈ g ∧ b ∉ g1 then g1 ++ [b] else g1

/-- The additions the same loop iteration makes to `checked_element_ids`:
each time an id is appended to the group it is also added to the set. -/
def updChecked (a b : Nat) (g : List Nat) (c : List Nat) : List Nat :=
  let c1 := if b ∈ g ∧ a ∉ g then c.insert a else c
  if a ∈ g ∧ b ∉ (if b ∈ g ∧ a ∉ g then g ++ [a] else g) then c1.insert b else c1

/-- The inner loop over all existing groups, threading the checked set. -/
def processGroups (a b : Nat) : List (List Nat) → List Nat → List (List Nat) × List Nat
  | [], c => ([], c)
  | g :: gs, c =>
    let r := processGroups a b gs (updChecked a b g c)
    (updGroup a b g :: r.1, r.2)

/-- One iteration of the outer `for warning in identical_instance_warnings`
loop: if either failing element has been seen, walk the existing groups;
otherwise record both ids and open a fresh group `[a, b]`. -/
def processWarning (st : GroupState) (w : Nat × Nat) : GroupState :=
  if w.1 ∈ st.checked ∨ w.2 ∈ st.checked then
    let r := processGroups w.1 w.2 st.groups st.checked
    ⟨r.2, r.1⟩
  else
    ⟨(st.checked.insert w.1).insert w.2, st.groups ++ [[w.1, w.2]]⟩

/-- `grouped_warnings_ids` as computed from the full warning list. -/
def grouped_warnings_ids (ws : List (Nat × Nat)) : List (List Nat) :=
  (ws.foldl processWarning ⟨[], []⟩).groups

/-- Two ids are directly related when some warning reports them together. -/
def warnStep (ws : List (Nat × Nat)) (x y : Nat) : Prop :=
  (x, y) ∈ ws ∨ (y, x) ∈ ws

/-- Transitive closure of "reported together in some warning". -/
def chainConn (ws : List (Nat × Nat)) : Nat → Nat → Prop :=
  Relation.ReflTransGen (warnStep ws)

lemma updGroup_eq (a b : Nat) (g : List Nat) :
    updGroup a b g =
      if b ∈ g ∧ a ∉ g then g ++ [a]
      else if a ∈ g ∧ b ∉ g then g ++ [b] else g := by
  by_cases hb : b ∈ g <;> by_cases ha : a ∈ g <;> simp [updGroup, ha, hb]

lemma subset_updGroup (a b : Nat) (g : List Nat) : ∀ x ∈ g, x ∈ updGroup a b g := by
  intro x hx
  rw [updGroup_eq]
  split_ifs <;> simp [hx]

lemma mem_updGroup {a b x : Nat} {g : List Nat} :
    x ∈ updGroup a b g ↔
      x ∈ g ∨ (x = a ∧ b ∈ g ∧ a ∉ g) ∨ (x = b ∧ a ∈ g ∧ b ∉ g) := by
  rw [updGroup_eq]
  split_ifs with h1 h2 <;> simp_all

lemma mem_updChecked {a b x : Nat} {g c : List Nat} :
    x ∈ updChecked a b g c ↔
      x ∈ c ∨ (x = a ∧ b ∈ g ∧ a ∉ g) ∨ (x = b ∧ a ∈ g ∧ b ∉ g) := by
  unfold updChecked
  by_cases hb : b ∈ g <;> by_cases ha : a ∈ g <;>
    simp [ha, hb, List.mem_insert_iff] <;> tauto

lemma processGroups_fst (a b : Nat) (gs : List (List Nat)) (c : List Nat) :
    (processGroups a b gs c).1 = gs.map (updGroup a b) := by
  induction gs generalizing c with
  | nil => rfl
  | cons g gs ih => simp [processGroups, ih]

lemma mem_processGroups_snd {a b x : Nat} {gs : List (List Nat)} {c : List Nat} :
    x ∈ (processGroups a b gs c).2 ↔
      x ∈ c ∨ ∃ g ∈ gs, (x = a ∧ b ∈ g ∧ a ∉ g) ∨ (x = b ∧ a ∈ g ∧ b ∉ g) := by
  induction gs generalizing c with
  | nil => simp [processGroups]
  | cons g gs ih =>
    have hstep : (processGroups a b (g :: gs) c).2 =
        (processGroups a b gs (updChecked a b g c)).2 := rfl
    rw [hstep, ih, mem_updChecked, List.exists_mem_cons_iff, or_assoc]

lemma warnStep_symm {ws : List (Nat × Nat)} {x y : Nat} (h : warnStep ws x y) :
    warnStep ws y x := h.symm

lemma chainConn_symm {ws : List (Nat × Nat)} {x y : Nat} (h : chainConn ws x y) :
    chainConn ws y x :=
  Relation.ReflTransGen.symmetric (fun _ _ hxy => warnStep_symm hxy) h

lemma updGroup_chain {ws : List (Nat × Nat)} {a b : Nat} {g : List Nat}
    (hab : warnStep ws a b)
    (hg : ∀ x ∈ g, ∀ y ∈ g, chainConn ws x y) :
    ∀ x ∈ updGroup a b g, ∀ y ∈ updGroup a b g, chainConn ws x y := by
  have bridge : ∀ x ∈ updGroup a b g, ∀ y ∈ g, chainConn ws x y := by
    intro x hx y hy
    rcases mem_updGroup.mp hx with hxg | ⟨rfl, hbg, _⟩ | ⟨rfl, hag, _⟩
    · exact hg x hxg y hy
    · exact Relation.ReflTransGen.head hab (hg b hbg y hy)
    · exact Relation.ReflTransGen.head (warnStep_symm hab) (hg a hag y hy)
  intro x hx y hy
  rcases mem_updGroup.mp hy with hyg | ⟨rfl, hbg, _⟩ | ⟨rfl, hag, _⟩
  · exact bridge x hx y hyg
  · exact Relation.ReflTransGen.tail (bridge x hx b hbg) (warnStep_symm hab)
  · exact Relation.ReflTransGen.tail (bridge x hx a hag) hab

/-- Invariant of the grouping loop: the checked set is exactly the union of
the groups, and any two members of one group are chain-connected. -/
structure GInv (ws : List (Nat × Nat)) (st : GroupState) : Prop where
  checkedGroups : ∀ x, x ∈ st.checked ↔ ∃ g ∈ st.groups, x ∈ g
  chain : ∀ g ∈ st.groups, ∀ x ∈ g, ∀ y ∈ g, chainConn ws x y

/-- Every listed warning has some group holding both of its ids. -/
def Covered (l : List (Nat × Nat)) (st : GroupState) : Prop :=
  ∀ w ∈ l, ∃ g ∈ st.groups, w.1 ∈ g ∧ w.2 ∈ g

lemma processWarning_of_mem {st : GroupState} {w : Nat × Nat}
    (hc : w.1 ∈ st.checked ∨ w.2 ∈ st.checked) :
    processWarning st w =
      ⟨(processGroups w.1 w.2 st.groups st.checked).2,
        st.groups.map (updGroup w.1 w.2)⟩ := by
  simp [processWarning, hc, processGroups_fst]

lemma processWarning_of_not_mem {st : GroupState} {w : Nat × Nat}
    (hc : ¬(w.1 ∈ st.checked ∨ w.2 ∈ st.checked)) :
    processWarning st w =
      ⟨(st.checked.insert w.1).insert w.2, st.groups ++ [[w.1, w.2]]⟩ := by
  simp [processWarning, hc]

lemma processWarning_inv {ws : List (Nat × Nat)} {st : GroupState} {w : Nat × Nat}
    (hw : w ∈ ws) (inv : GInv ws st) : GInv ws (processWarning st w) := by
  have hab : warnStep ws w.1 w.2 := Or.inl (by simpa using hw)
  by_cases hc : w.1 ∈ st.checked ∨ w.2 ∈ st.checked
  · rw [processWarning_of_mem hc]
    refine ⟨?_, ?_⟩
    · intro x
      constructor
      · intro h
        rcases mem_processGroups_snd.mp h with hx | ⟨g, hgmem, hcond⟩
        · obtain ⟨g, hgmem, hxg⟩ := (inv.checkedGroups x).mp hx
          exact ⟨_, List.mem_map_of_mem _ hgmem, subset_updGroup _ _ _ x hxg⟩
        · exact ⟨_, List.mem_map_of_mem _ hgmem, mem_updGroup.mpr (Or.inr hcond)⟩
      · rintro ⟨g', hg', hxg'⟩
        obtain ⟨g, hgmem, rfl⟩ := List.mem_map.mp hg'
        rcases mem_updGroup.mp hxg' with hxg | hcond
        · exact mem_processGroups_snd.mpr
            (Or.inl ((inv.checkedGroups x).mpr ⟨g, hgmem, hxg⟩))
        · exact mem_processGroups_snd.mpr (Or.inr ⟨g, hgmem, hcond⟩)
    · intro g' hg'
      obtain ⟨g, hgmem, rfl⟩ := List.mem_map.mp hg'
      exact updGroup_chain hab (inv.chain g hgmem)
  · rw [processWarning_of_not_mem hc]
    refine ⟨?_, ?_⟩
    · intro x
      simp only [List.mem_insert_iff]
      constructor
      · rintro (rfl | rfl | hx)
        · exact ⟨[w.1, w.2], by simp, by simp⟩
        · exact ⟨[w.1, w.2], by simp, by simp⟩
        · obtain ⟨g, hgmem, hxg⟩ := (inv.checkedGroups x).mp hx
          exact ⟨g, by simp [hgmem], hxg⟩
      · rintro ⟨g, hgmem, hxg⟩
        rcases List.mem_append.mp hgmem with hold | hnew
        · exact Or.inr (Or.inr ((inv.checkedGroups x).mpr ⟨g, hold, hxg⟩))
        · have hg2 : g = [w.1, w.2] := by simpa using hnew
          subst hg2
          have hx2 : x = w.1 ∨ x = w.2 := by simpa using hxg
          rcases hx2 with rfl | rfl
          · exact Or.inr (Or.inl rfl)
          · exact Or.inl rfl
    · intro g hgmem x hx y hy
      rcases List.mem_append.mp hgmem with hold | hnew
      · exact inv.chain g hold x hx y hy
      · have hg2 : g = [w.1, w.2] := by simpa using hnew
        subst hg2
        have hx2 : x = w.1 ∨ x = w.2 := by simpa using hx
        have hy2 : y = w.1 ∨ y = w.2 := by simpa using hy
        rcases hx2 with rfl | rfl <;> rcases hy2 with rfl | rfl
        · exact Relation.ReflTransGen.refl
        · exact Relation.ReflTransGen.single hab
        · exact Relation.ReflTransGen.single (warnStep_symm hab)
        · exact Relation.ReflTransGen.refl

lemma covered_step {ws : List (Nat × Nat)} {st : GroupState}
    {done : List (Nat × Nat)} {w : Nat × Nat}
    (inv : GInv ws st) (hdone : Covered done st) :
    Covered (done ++ [w]) (processWarning st w) := by
  intro u hu
  by_cases hc : w.1 ∈ st.checked ∨ w.2 ∈ st.checked
  · rw [processWarning_of_mem hc]
    rcases List.mem_append.mp hu with hud | hu1
    · obtain ⟨g, hg, h1, h2⟩ := hdone u hud
      exact ⟨updGroup w.1 w.2 g, List.mem_map_of_mem _ hg,
        subset_updGroup _ _ _ _ h1, subset_updGroup _ _ _ _ h2⟩
    · have : u = w := by simpa using hu1
      subst this
      rcases hc with h1 | h2
      · obtain ⟨g, hg, hag⟩ := (inv.checkedGroups u.1).mp h1
        refine ⟨updGroup u.1 u.2 g, List.mem_map_of_mem _ hg,
          subset_updGroup _ _ _ _ hag, ?_⟩
        by_cases hbg : u.2 ∈ g
        · exact subset_updGroup _ _ _ _ hbg
        · exact mem_updGroup.mpr (Or.inr (Or.inr ⟨rfl, hag, hbg⟩))
      · obtain ⟨g, hg, hbg⟩ := (inv.checkedGroups u.2).mp h2
        refine ⟨updGroup u.1 u.2 g, List.mem_map_of_mem _ hg, ?_,
          subset_updGroup _ _ _ _ hbg⟩
        by_cases hag : u.1 ∈ g
        · exact subset_updGroup _ _ _ _ hag
        · exact mem_updGroup.mpr (Or.inr (Or.inl ⟨rfl, hbg, hag⟩))
  · rw [processWarning_of_not_mem hc]
    rcases List.mem_append.mp hu with hud | hu1
    · obtain ⟨g, hg, h1, h2⟩ := hdone u hud
      exact ⟨g, by simp [hg], h1, h2⟩
    · have : u = w := by simpa using hu1
      subst this
      exact ⟨[u.1, u.2], by simp, by simp⟩

lemma foldl_grouping_inv (ws : List (Nat × Nat)) :
    ∀ (rest done : List (Nat × Nat)) (st : GroupState),
      (∀ u ∈ rest, u ∈ ws) → GInv ws st → Covered done st →
      GInv ws (rest.foldl processWarning st) ∧
        Covered (done ++ rest) (rest.foldl processWarning st) := by
  intro rest
  induction rest with
  | nil =>
    intro done st _ inv cov
    simpa using ⟨inv, cov⟩
  | cons w rest ih =>
    intro done st hsub inv cov
    have hw : w ∈ ws := hsub w (by simp)
    have inv' := processWarning_inv hw inv
    have cov' := covered_step (w := w) inv cov
    have h := ih (done ++ [w]) (processWarning st w)
      (fun u hu => hsub u (by simp [hu])) inv' cov'
    simpa [List.append_assoc] using h

/-- C1 (amended): the grouping pass is sound but is not a partition into
equivalence classes.  Every warning's two element ids end up together in at
least one resulting group (hence every mentioned id is in at least one
group), and any two ids lying in a common group are connected by a chain of
warnings sharing elements.  (The converse fails: see the counterexample —
a warning bridging two existing groups extends both without merging them,
so an id can end up in more than one group.) -/
theorem grouped_warnings_ids_sound (ws : List (Nat × Nat)) :
    (∀ w ∈ ws, ∃ g ∈ grouped_warnings_ids ws, w.1 ∈ g ∧ w.2 ∈ g) ∧
    (∀ g ∈ grouped_warnings_ids ws, ∀ x ∈ g, ∀ y ∈ g, chainConn ws x y) := by
  have hinv : GInv ws ⟨[], []⟩ := ⟨by simp, by simp⟩
  have hcov : Covered [] (⟨[], []⟩ : GroupState) := by
    intro u hu
    simp at hu
  have h := foldl_grouping_inv ws ws [] ⟨[], []⟩ (fun _ hu => hu) hinv hcov
  refine ⟨fun w hw => h.2 w (by simpa using hw), fun g hg => h.1.chain g hg⟩

/-- Witness for C1's amended theorem at the concrete warning list `[(5,6)]`. -/
theorem grouped_warnings_ids_sound_witness :
    ∃ g ∈ grouped_warnings_ids [(5, 6)], 5 ∈ g ∧ 6 ∈ g :=
  (grouped_warnings_ids_sound [(5, 6)]).1 (5, 6) (by decide)

/-- C1 counterexample: on the warnings `(1,2), (3,4), (1,3)` the grouping
pass returns `[[1,2,3],[3,4,1]]` — the mentioned id `1` lies in two of the
resulting groups, not exactly one, so the result is not a partition of the
mentioned ids. -/
theorem grouped_warnings_ids_not_partition :
    grouped_warnings_ids [(1, 2), (3, 4), (1, 3)] = [[1, 2, 3], [3, 4, 1]] ∧
    (grouped_warnings_ids [(1, 2), (3, 4), (1, 3)]).countP
      (fun g => g.contains 1) = 2 := by
  constructor <;> decide

/-! ## Identical Instances: choosing which duplicates to delete

Source: same script, lines 204-296.  For each group the loop partitions the
elements into deletable main-model elements (`check_to_delete`), deletable
design-option elements (`check_to_delete_in_design_options`) and retained
ones, then decides what to add to the global set `elements_ids_to_delete`.
-/

/-- Per-element facts the deletion pass reads from the document.  `blocked`
records that `check_host_and_groupId` or `check_dependencies` returned True
(hosted/nested, in a group, or having dependent elements); `doId` is the
design option id (`none` = main model) and `dosName` the design option set
name. -/
structure ElemInfo where
  blocked : Bool
  doId : Option Nat
  dosName : String

/-- Accumulator of the design-option dedup loop (lines 257-270): the set of
seen design option ids (`DO_ids`), the first element per design option
(`DOSets_elements`) and the ids already marked for deletion. -/
structure DOAcc where
  doIds : List Nat
  dosElems : List Nat
  dels : List Nat

/-- One step of the design-option loop: an element whose design option was
already seen is deleted, otherwise it is recorded. -/
def doStep (env : Nat → ElemInfo) (acc : DOAcc) (i : Nat) : DOAcc :=
  if ((env i).doId.getD 0) ∈ acc.doIds then { acc with dels := acc.dels ++ [i] }
  else ⟨acc.doIds ++ [(env i).doId.getD 0], acc.dosElems ++ [i], acc.dels⟩

/-- Stable insertion into a list sorted by Python's tuple order on
`(DSName, element_id)` pairs, modelling `sorted(dos_elements)`. -/
def insertLeDO (p : String × Nat) : List (String × Nat) → List (String × Nat)
  | [] => [p]
  | q :: r =>
    if p.1 < q.1 ∨ (p.1 = q.1 ∧ p.2 ≤ q.2) then p :: q :: r else q :: insertLeDO p r

/-- `sorted(dos_elements)` on `(DSName, element_id)` pairs. -/
def sortDOPairs (l : List (String × Nat)) : List (String × Nat) :=
  l.foldr insertLeDO []

/-- The ids one group's pass adds to `elements_ids_to_delete` (the body of
the `for list in grouped_warnings_ids` loop at lines 207-296). -/
def processGroupDelete (env : Nat → ElemInfo) (selYes : Bool)
    (group : List Nat) : List Nat :=
  let ctd := group.filter (fun i => !(env i).blocked && (env i).doId.isNone)
  let cdo := group.filter (fun i => !(env i).blocked && (env i).doId.isSome)
  let ret := group.filter (fun i => (env i).blocked && (env i).doId.isNone)
  if ret ≠ [] then ctd ++ cdo
  else if ctd ≠ [] then (ctd ++ cdo).tail
  else
    let acc := cdo.foldl (doStep env) ⟨[], [], []⟩
    let extra :=
      if acc.doIds.length > 1 ∧ selYes then
        let sorted := sortDOPairs (acc.dosElems.map (fun i => ((env i).dosName, i)))
        let lastName := (sorted.map Prod.fst).getLastD ""
        (sorted.filter (fun p => p.1 ≠ lastName)).map Prod.snd
      else []
    acc.dels ++ extra

/-- Adding an element to a Python set modelled as a duplicate-free list. -/
def setAdd (s : List Nat) (i : Nat) : List Nat := if i ∈ s then s else s ++ [i]

/-- The global `elements_ids_to_delete` set accumulated over all groups. -/
def elements_ids_to_delete (env : Nat → ElemInfo) (selYes : Bool)
    (gs : List (List Nat)) : List Nat :=
  gs.foldl (fun s g => (processGroupDelete env selYes g).foldl setAdd s) []

/-- C2 (code bug): on the warnings `(1,2), (3,4), (1,3)` with all four
elements deletable (not grouped, not nested, no dependents, main model),
the grouping pass produces the overlapping groups `[[1,2,3],[3,4,1]]` and
the deletion pass then schedules every element of the group `[1,2,3]`
(indeed all four duplicates) for deletion — no element of that group is
retained, contradicting the claim and the script's own description. -/
theorem identical_instances_deletes_whole_group :
    grouped_warnings_ids [(1, 2), (3, 4), (1, 3)] = [[1, 2, 3], [3, 4, 1]] ∧
    ∀ x ∈ [1, 2, 3],
      x ∈ elements_ids_to_delete (fun _ => ⟨false, none, ""⟩) true
        (grouped_warnings_ids [(1, 2), (3, 4), (1, 3)]) := by
  constructor <;> decide

/-! ## String helpers

Python string operations modelled on explicit character lists, so that all
definitions reduce inside the kernel (`String.splitOn`, `String.startsWith`
and friends do not). -/

/-- `startsWithList pat l` holds when `pat` is an initial run of `l`
(Python `startswith`). -/
def startsWithList : List Char → List Char → Bool
  | [], _ => true
  | _ :: _, [] => false
  | p :: ps, c :: cs => p = c && startsWithList ps cs

/-- `subListAt pat l` holds when `pat` occurs contiguously in `l`
(Python `pat in s`). -/
def subListAt : List Char → List Char → Bool
  | [], _ => true
  | _ :: _, [] => false
  | p :: ps, c :: cs => startsWithList (p :: ps) (c :: cs) || subListAt (p :: ps) cs

/-- The characters before the first occurrence of (non-empty) `sep`, or the
whole list when `sep` does not occur: Python `s.split(sep)[0]`. -/
def takeUntilSub (sep : List Char) : List Char → List Char
  | [] => []
  | c :: cs => if startsWithList sep (c :: cs) then [] else c :: takeUntilSub sep cs

/-- Python `pat in s` (substring test). -/
def strContains (s pat : String) : Bool := subListAt pat.data s.data

/-- Python `s.startswith(pat)`. -/
def strStartsWith (s pat : String) : Bool := startsWithList pat.data s.data

/-- Python `s.split(sep)[0]` for non-empty `sep`. -/
def pyFirstField (s sep : String) : String := String.mk (takeUntilSub sep.data s.data)

/-! ## CAD Worksets

Source: `HT.tab/BIM Maintenance.panel/CAD Worksets.pushbutton/script.py`.
Lines 36-66 build the report list `incorrect_workset_cad`; lines 97-115
apply the correction to the selected entries.
-/

/-- The data the script reads for one loaded CAD instance. -/
structure CadInfo where
  id : Nat
  typeId : Nat
  name : String
  instWorkset : String
  typeWorkset : String
  creator : String
deriving Repr, DecidableEq

/-- `correct_workset_name = ["Z-Linked CAD","Z-Linked-CAD"]` (line 16). -/
def correct_workset_name : List String := ["Z-Linked CAD", "Z-Linked-CAD"]

/-- `cad_workset.startswith("View")` (line 42). -/
def cadOnViewWorkset (c : CadInfo) : Bool := strStartsWith c.instWorkset "View"

/-- `cad_workset in correct_workset_name` (line 55). -/
def cadInstOk (c : CadInfo) : Bool := correct_workset_name.contains c.instWorkset

/-- `cad_type_workset in correct_workset_name` (line 55). -/
def cadTypeOk (c : CadInfo) : Bool := correct_workset_name.contains c.typeWorkset

/-- The display string appended for one reported CAD file (lines 58-66). -/
def cadEntry (c : CadInfo) : String :=
  if !cadInstOk c && !cadTypeOk c then
    c.name ++ " - Instance & Type (Current: " ++ c.instWorkset ++ ", " ++
      c.typeWorkset ++ ") - Creator: " ++ c.creator ++ " - Id: " ++ toString c.id
  else if !cadInstOk c then
    c.name ++ " - Instance (Current: " ++ c.instWorkset ++ ") - Creator: " ++
      c.creator ++ " - Id: " ++ toString c.id
  else
    c.name ++ " - Type (Current: " ++ c.typeWorkset ++ ") - Creator: " ++
      c.creator ++ " - Id: " ++ toString c.id

/-- The `incorrect_workset_cad` list built by the loop at lines 39-66. -/
def incorrect_workset_cad : List CadInfo → List String
  | [] => []
  | c :: r =>
    if !cadOnViewWorkset c then
      if !cadInstOk c || !cadTypeOk c then cadEntry c :: incorrect_workset_cad r
      else incorrect_workset_cad r
    else incorrect_workset_cad r

/-- The claim's wording of the judgment: reported iff the instance workset
name does not start with `"View"` and at least one of the instance and type
workset names is not one of the two correct names. -/
def claimIncorrectCad (c : CadInfo) : Bool :=
  !cadOnViewWorkset c && (!cadInstOk c || !cadTypeOk c)

/-- C7: the report list contains exactly the entries of the CAD instances
satisfying the claim's condition, in order; and a reported instance never has
both worksets correct, so CAD files on a correct workset are never offered
for correction. -/
theorem cad_worksets_report_iff (cads : List CadInfo) :
    incorrect_workset_cad cads = (cads.filter claimIncorrectCad).map cadEntry ∧
    ∀ c, claimIncorrectCad c = true → ¬(cadInstOk c = true ∧ cadTypeOk c = true) := by
  constructor
  · induction cads with
    | nil => rfl
    | cons c r ih =>
      by_cases h1 : cadOnViewWorkset c <;> by_cases h2 : cadInstOk c <;>
        by_cases h3 : cadTypeOk c <;>
        simp [incorrect_workset_cad, claimIncorrectCad, h1, h2, h3, ih]
  · intro c hc hok
    simp [claimIncorrectCad, hok.1, hok.2] at hc

/-- Witness for C7 at a concrete CAD instance with both worksets wrong. -/
theorem cad_worksets_report_iff_witness :
    ¬(cadInstOk ⟨1, 7, "A.dwg", "W1", "W2", "bob"⟩ = true ∧
      cadTypeOk ⟨1, 7, "A.dwg", "W1", "W2", "bob"⟩ = true) :=
  (cad_worksets_report_iff []).2 ⟨1, 7, "A.dwg", "W1", "W2", "bob"⟩ (by decide)

/-! ### The correction step (lines 97-115) -/

/-- The workset parameters the correction writes: instance-element and
type-element workset parameter by element id. -/
structure WsState where
  instWs : Nat → Nat
  typeWs : Nat → Nat

/-- The body of the `for cad_instance in cad_instances` loop for one selected
entry: every instance whose file name equals the parsed name gets its
instance (or type) workset parameter set to the correct workset id. -/
def correctionStep (correctId : Nat) (cadName : String) (isInst : Bool)
    (s : WsState) (c : CadInfo) : WsState :=
  if c.name = cadName then
    if isInst then
      ⟨fun i => if i = c.id then correctId else s.instWs i, s.typeWs⟩
    else
      ⟨s.instWs, fun t => if t = c.typeId then correctId else s.typeWs t⟩
  else s

/-- Processing one selected report entry (lines 97-115): the CAD name is the
part of the display string before the first `" - "`, and the entry counts as
an Instance correction exactly when the string `"Instance"` occurs in it. -/
def applyCorrection (cads : List CadInfo) (correctId : Nat) (st : WsState)
    (entry : String) : WsState :=
  cads.foldl
    (correctionStep correctId (pyFirstField entry " - ") (strContains entry "Instance"))
    st

lemma correction_fold_typeWs (correctId : Nat) (cadName : String)
    (cads : List CadInfo) :
    ∀ s : WsState,
      (cads.foldl (correctionStep correctId cadName true) s).typeWs = s.typeWs := by
  induction cads with
  | nil => intro s; rfl
  | cons c r ih =>
    intro s
    rw [List.foldl_cons, ih]
    unfold correctionStep
    split_ifs <;> simp_all

lemma correction_fold_inst_keep (correctId : Nat) (cadName : String)
    (cads : List CadInfo) :
    ∀ (s : WsState) (i : Nat), s.instWs i = correctId →
      (cads.foldl (correctionStep correctId cadName true) s).instWs i = correctId := by
  induction cads with
  | nil => intro s i h; exact h
  | cons c r ih =>
    intro s i h
    rw [List.foldl_cons]
    refine ih _ i ?_
    unfold correctionStep
    split_ifs <;> simp [h]

lemma correction_fold_inst_sets (correctId : Nat) (cadName : String)
    (cads : List CadInfo) :
    ∀ (s : WsState) (c : CadInfo), c ∈ cads → c.name = cadName →
      (cads.foldl (correctionStep correctId cadName true) s).instWs c.id = correctId := by
  induction cads with
  | nil => intro s c hc; exact absurd hc (List.not_mem_nil c)
  | cons d r ih =>
    intro s c hc hname
    rw [List.foldl_cons]
    rcases List.mem_cons.mp hc with rfl | hcr
    · refine correction_fold_inst_keep _ _ _ _ _ ?_
      simp [correctionStep, hname]
    · exact ih _ c hcr hname

lemma correction_fold_inst_untouched (correctId : Nat) (cadName : String)
    (cads : List CadInfo) :
    ∀ (s : WsState) (i : Nat), (∀ c ∈ cads, c.name = cadName → c.id ≠ i) →
      (cads.foldl (correctionStep correctId cadName true) s).instWs i = s.instWs i := by
  induction cads with
  | nil => intro s i _; rfl
  | cons c r ih =>
    intro s i hno
    rw [List.foldl_cons, ih _ i (fun d hd => hno d (List.mem_cons_of_mem c hd))]
    unfold correctionStep
    split_ifs with h1 h2
    · have := hno c (List.mem_cons_self c r) h1
      simp [Ne.symm this]
    · rfl
    · rfl

/-- C10: processing one selected entry that the report marked as containing
`"Instance"` (in particular every `Instance & Type` entry) matches model
elements only by the CAD file name parsed from the display string: every
loaded CAD instance whose file name equals that parsed name has its instance
workset parameter set to the correct workset id, instances whose name does
not match are untouched, and no type workset parameter is changed at all. -/
theorem cad_correction_by_name (cads : List CadInfo) (correctId : Nat)
    (st : WsState) (e : String) (hInst : strContains e "Instance" = true) :
    (∀ c ∈ cads, c.name = pyFirstField e " - " →
        (applyCorrection cads correctId st e).instWs c.id = correctId) ∧
    (∀ i, (∀ c ∈ cads, c.name = pyFirstField e " - " → c.id ≠ i) →
        (applyCorrection cads correctId st e).instWs i = st.instWs i) ∧
    (applyCorrection cads correctId st e).typeWs = st.typeWs := by
  unfold applyCorrection
  rw [hInst]
  exact ⟨fun c hc hname => correction_fold_inst_sets _ _ _ _ c hc hname,
    fun i hno => correction_fold_inst_untouched _ _ _ _ i hno,
    correction_fold_typeWs _ _ _ _⟩

/-- Witness for C10 at a concrete `Instance & Type` entry: both instances
named `A.dwg` are corrected by the single entry. -/
theorem cad_correction_by_name_witness :
    (applyCorrection
        [⟨1, 7, "A.dwg", "W1", "W2", "bob"⟩, ⟨2, 7, "A.dwg", "V", "V2", "amy"⟩]
        9 ⟨fun _ => 0, fun _ => 0⟩
        "A.dwg - Instance & Type (Current: W1, W2) - Creator: bob - Id: 1").instWs 2 = 9 :=
  (cad_correction_by_name _ 9 _ _ (by decide)).1
    ⟨2, 7, "A.dwg", "V", "V2", "amy"⟩ (by decide) (by decide)

/-! ## Delete Views: which selected views are judged unused

Source: `HT.tab/BIM Maintenance.panel/Delete.pulldown/Delete Views.pushbutton/script.py`,
lines 75-109.  For each selected view the script reads whether it sits on a
sheet (`get_view_sheet`) and its dependent views (`get_all_dependent_views`).
-/

/-- One selected view: its element id, whether `get_view_sheet` finds a
sheet, and the ids returned by `get_all_dependent_views`. -/
structure VInfo where
  id : Nat
  onSheet : Bool
  deps : List Nat
deriving Repr, DecidableEq

/-- Line 105 evaluates `dep_id in views_to_delete`, comparing an `ElementId`
against the `View` objects stored in `views_to_delete`; equality between
values of those two distinct types is always False in the source runtime. -/
def elementIdEqView (_depId : Nat) (_v : VInfo) : Bool := false

/-- `dep_id in views_to_delete` (line 105). -/
def depMarked (dep : Nat) (vtd : List VInfo) : Bool := vtd.any (elementIdEqView dep)

/-- The first classification pass (lines 79-97): views neither on a sheet
nor with dependents go to `views_to_delete`. -/
def views_to_delete_first (sel : List VInfo) : List VInfo :=
  sel.filter (fun v => !v.onSheet && v.deps.isEmpty)

/-- The complement kept in `views_on_sheets_or_with_dependents`. -/
def views_on_sheets_or_with_dependents (sel : List VInfo) : List VInfo :=
  sel.filter (fun v => !(!v.onSheet && v.deps.isEmpty))

/-- The second pass (lines 99-109): the final `views_to_delete` (first pass
plus `additional_deletions`) and the retained list
`new_views_on_sheets_or_with_dependents`. -/
def classifyViews (sel : List VInfo) : List VInfo × List VInfo :=
  let vtd := views_to_delete_first sel
  let addl := (views_on_sheets_or_with_dependents sel).filter
    (fun v => !v.deps.isEmpty && v.deps.all (fun d => depMarked d vtd))
  let report := (views_on_sheets_or_with_dependents sel).filter
    (fun v => !(!v.deps.isEmpty && v.deps.all (fun d => depMarked d vtd)))
  (vtd ++ addl, report)

lemma additional_deletions_nil (sel : List VInfo) (vtd : List VInfo) :
    (views_on_sheets_or_with_dependents sel).filter
      (fun v => !v.deps.isEmpty && v.deps.all (fun d => depMarked d vtd)) = [] := by
  refine List.filter_eq_nil_iff.mpr ?_
  intro v _
  cases hd : v.deps with
  | nil => simp [hd]
  | cons d r => simp [hd, depMarked, elementIdEqView]

/-- C6: a selected view is put on the deletion list exactly when it is not
on any sheet and has no dependent views; every selected view that is on a
sheet or has a dependent view whose id is not among the deleted views' ids
is kept out of the deletion list and listed in the final report instead. -/
theorem delete_views_classification (sel : List VInfo) :
    (∀ v, v ∈ (classifyViews sel).1 ↔
        v ∈ sel ∧ v.onSheet = false ∧ v.deps = []) ∧
    (∀ v ∈ sel,
        (v.onSheet = true ∨ ∃ d ∈ v.deps, d ∉ (classifyViews sel).1.map VInfo.id) →
        v ∈ (classifyViews sel).2 ∧ v ∉ (classifyViews sel).1) := by
  have h0 : (classifyViews sel).1 = views_to_delete_first sel ++
      (views_on_sheets_or_with_dependents sel).filter
        (fun v => !v.deps.isEmpty &&
          v.deps.all (fun d => depMarked d (views_to_delete_first sel))) := rfl
  have h1 : (classifyViews sel).1 = views_to_delete_first sel := by
    rw [h0, additional_deletions_nil sel, List.append_nil]
  have hmem : ∀ v, v ∈ (classifyViews sel).1 ↔
      v ∈ sel ∧ v.onSheet = false ∧ v.deps = [] := by
    intro v
    rw [h1]
    unfold views_to_delete_first
    simp [List.mem_filter, List.isEmpty_iff]
  refine ⟨hmem, ?_⟩
  intro v hv hcase
  have hnotdel : ¬(v.onSheet = false ∧ v.deps = []) := by
    rcases hcase with hs | ⟨d, hd, _⟩
    · rintro ⟨h, _⟩
      rw [hs] at h
      cases h
    · rintro ⟨_, h⟩
      rw [h] at hd
      cases hd
  have h2 : (classifyViews sel).2 = (views_on_sheets_or_with_dependents sel).filter
      (fun v => !(!v.deps.isEmpty &&
        v.deps.all (fun d => depMarked d (views_to_delete_first sel)))) := rfl
  constructor
  · rw [h2, List.mem_filter]
    constructor
    · unfold views_on_sheets_or_with_dependents
      rw [List.mem_filter]
      refine ⟨hv, ?_⟩
      simp only [Bool.not_eq_true']
      by_cases hs : v.onSheet <;> cases hd : v.deps <;>
        simp_all [List.isEmpty_iff]
    · cases hd : v.deps with
      | nil => simp [hd]
      | cons d r => simp [hd, depMarked, elementIdEqView]
  · intro hmem'
    exact hnotdel ((hmem v).mp hmem').2

/-- Witness for C6: a view on a sheet is retained and reported. -/
theorem delete_views_classification_witness :
    ⟨1, true, []⟩ ∈ (classifyViews [⟨1, true, []⟩, ⟨2, false, []⟩]).2 ∧
    (⟨1, true, []⟩ : VInfo) ∉ (classifyViews [⟨1, true, []⟩, ⟨2, false, []⟩]).1 :=
  (delete_views_classification [⟨1, true, []⟩, ⟨2, false, []⟩]).2
    ⟨1, true, []⟩ (by decide) (Or.inl rfl)

/-! ## RVT Link Worksets: naming convention and workset names

Source: `HT.tab/BIM Maintenance.panel/RVT Link Worksets.pushbutton/script.py`,
lines 140-290.  The link name (extension stripped at lines 140-151) is
matched against
`re.match(r"(\w+)-(\w+)-(\w+)-(\w+)-(\w+)-(\w+)-(\d+)([\w\d\s]*)?", link_name)`
and the workset name is assembled from the captured groups.
-/

/-- Python `\w` on byte strings: letters, digits and underscore. -/
def isWordChar (c : Char) : Bool := c.isAlphanum || c = '_'

/-- ASCII lower-casing, Python `str.lower()` on the names in play. -/
def asciiLower (c : Char) : Char :=
  if 'A' ≤ c ∧ c ≤ 'Z' then Char.ofNat (c.toNat + 32) else c

/-- ASCII upper-casing, Python `str.upper()`. -/
def asciiUpper (c : Char) : Char :=
  if 'a' ≤ c ∧ c ≤ 'z' then Char.ofNat (c.toNat - 32) else c

def strLower (s : String) : String := String.mk (s.data.map asciiLower)

def strUpper (s : String) : String := String.mk (s.data.map asciiUpper)

/-- Python `s.split('.')[-1]`: the characters after the last dot. -/
def afterLastDot (cs : List Char) : List Char :=
  cs.foldl (fun acc c => if c = '.' then [] else acc ++ [c]) []

/-- `link_name` with the extension stripped (lines 140-151): the check is on
the lower-cased name but the split is case-sensitive on `".rvt"`/`".ifc"`,
otherwise the name is cut at the first dot. -/
def linkBaseName (name : String) : String :=
  if strContains (strLower name) ".rvt" then pyFirstField name ".rvt"
  else if strContains (strLower name) ".ifc" then pyFirstField name ".ifc"
  else pyFirstField name "."

/-- The upper-cased extension used in the workset prefix (lines 140-151). -/
def linkExtension (name : String) : String :=
  if strContains (strLower name) ".rvt" then "RVT"
  else if strContains (strLower name) ".ifc" then "IFC"
  else strUpper (String.mk (afterLastDot (pyFirstField name " : ").data))

/-- `linked_file_prefix`, e.g. `"Z-Linked RVT-"`. -/
def linkedFileLabel (name : String) : String := "Z-Linked " ++ linkExtension name ++ "-"

/-- The eight capture groups of the naming-convention regex. -/
structure LinkParts where
  f1 : String
  originator : String
  zone : String
  f4 : String
  f5 : String
  discipline : String
  digits : String
  description : String
deriving Repr, DecidableEq

/-- One `(\w+)-` step of the regex: a non-empty maximal run of word
characters followed by a literal hyphen.  (No backtracking is lost: `\w`
cannot match `-`, so each group must end exactly at the next non-word
character, which the pattern requires to be a hyphen.) -/
def parseFieldDash (cs : List Char) : Option (String × List Char) :=
  let w := cs.takeWhile isWordChar
  let r := cs.dropWhile isWordChar
  if w.isEmpty then none
  else
    match r with
    | [] => none
    | c :: r2 => if c = '-' then some (String.mk w, r2) else none

/-- The anchored prefix match of
`(\w+)-(\w+)-(\w+)-(\w+)-(\w+)-(\w+)-(\d+)([\w\d\s]*)?`: six word fields,
then greedy digits, then a greedy run of word/space characters; trailing
unmatched characters are allowed, as with `re.match`. -/
def re_match_linkName (s : String) : Option LinkParts :=
  match parseFieldDash s.data with
  | none => none
  | some (a1, r1) =>
  match parseFieldDash r1 with
  | none => none
  | some (a2, r2) =>
  match parseFieldDash r2 with
  | none => none
  | some (a3, r3) =>
  match parseFieldDash r3 with
  | none => none
  | some (a4, r4) =>
  match parseFieldDash r4 with
  | none => none
  | some (a5, r5) =>
  match parseFieldDash r5 with
  | none => none
  | some (a6, r6) =>
    let ds := r6.takeWhile Char.isDigit
    let rest := r6.dropWhile Char.isDigit
    if ds.isEmpty then none
    else
      some ⟨a1, a2, a3, a4, a5, a6, String.mk ds,
        String.mk (rest.takeWhile (fun c => isWordChar c || c.isWhitespace))⟩

/-- `originator` after line 196-199: dropped for discipline `A` when the
user declined, otherwise prefixed with a hyphen. -/
def originatorPart (addOrig : Bool) (discipline originator : String) : String :=
  if discipline = "A" && !addOrig then "" else "-" ++ originator

/-- `zone` after lines 207-211: dropped when `"ZZ"` or not requested. -/
def zonePart (addZone : Bool) (zone : String) : String :=
  if zone = "ZZ" || !addZone then "" else "-" ++ zone

/-- Python `str.strip()`. -/
def pyStrip (s : String) : String :=
  String.mk (((s.data.dropWhile Char.isWhitespace).reverse.dropWhile
    Char.isWhitespace).reverse)

/-- Python `str.replace(old, new)` on non-empty `old`: every occurrence is
replaced, scanning left to right.  The `Nat` argument is fuel, always called
with the list length (the scan consumes at least one character per step). -/
def replaceSubAux (pat repl : List Char) : Nat → List Char → List Char
  | 0, l => l
  | _ + 1, [] => []
  | fuel + 1, c :: cs =>
    if startsWithList pat (c :: cs) ∧ pat ≠ [] then
      repl ++ replaceSubAux pat repl fuel (cs.drop (pat.length - 1))
    else c :: replaceSubAux pat repl fuel cs

def replaceSub (pat repl cs : List Char) : List Char :=
  replaceSubAux pat repl cs.length cs

def pyReplace (s old new : String) : String :=
  String.mk (replaceSub old.data new.data s.data)

/-- `base_name` (lines 216-220). -/
def rl_base_name (link_name digits description : String) : String :=
  if description ≠ "" then
    pyStrip (pyReplace (pyStrip (pyReplace link_name description "")) digits "")
  else pyStrip (pyReplace link_name digits "")

/-- Numeric value of a digit character, Python `int(last_digit)`. -/
def charVal (c : Char) : Nat := c.toNat - '0'.toNat

/-- `find_similar_part_names` (lines 232-249). -/
def find_similar_part_names (desc part_number bn last_digit : String)
    (similar : List String) : String :=
  if 1 < charVal (last_digit.data.headD '0') then
    if desc ≠ "" then desc ++ " " ++ last_digit else last_digit
  else
    let parts := similar.filter (fun p => strStartsWith p (bn ++ part_number))
    if 0 < parts.length then
      if desc ≠ "" then desc ++ " " ++ last_digit else last_digit
    else desc

/-- Result of the digits-suffix logic at lines 251-284: either nothing is
appended, or `'-' ++ s` is appended, or the script raises an uncaught
`IndexError` on `digits[1]` when `digits` is a single character. -/
inductive DigitsRes
  | crash
  | noSuffix
  | suffix (s : String)
deriving Repr, DecidableEq

/-- Lines 251-284: what gets appended after `discipline+originator+zone`. -/
def digitsSuffix (similar : List String) (digits discipline bn : String) : DigitsRes :=
  let lastD := String.mk [digits.data.getLastD '0']
  if 0 < similar.length then
    if strStartsWith digits "1" ∧ discipline = "A" then
      .suffix (find_similar_part_names "Internal" "1" bn lastD similar)
    else if strStartsWith digits "2" ∧ discipline = "A" then
      .suffix (find_similar_part_names "Facade" "2" bn lastD similar)
    else
      match digits.data.drop 1 with
      | [] => .crash
      | c :: _ => .suffix (find_similar_part_names "" (String.mk [c]) bn lastD similar)
  else
    if strStartsWith digits "1" then
      .suffix (find_similar_part_names "Internal" "1" bn lastD similar)
    else if strStartsWith digits "2" then
      .suffix (find_similar_part_names "Facade" "2" bn lastD similar)
    else if 1 < charVal (digits.data.getLastD '0') then
      match digits.data.drop 1 with
      | [] => .crash
      | c :: _ => .suffix (String.mk [c] ++ lastD)
    else .noSuffix

/-- Lines 269, 275, 278, 282 and 285: how the digits result is appended to
`instance_name` before the prefix is prepended. -/
def assembleWorksetName (label inst0 : String) : DigitsRes → Option String
  | .crash => none
  | .noSuffix => some (label ++ inst0)
  | .suffix d => some (label ++ inst0 ++ "-" ++ d)

/-- The `similar_link_names` list (lines 224-230): all other link names plus
the current model file name, restricted to those starting with the base
name. -/
def similarLinkNames (all_rvt_link_names : List String) (file_name link_name bn : String) :
    List String :=
  ((all_rvt_link_names.filter (fun s => s ≠ link_name)) ++ [file_name]).filter
    (fun n => strStartsWith n bn)

/-- The workset name computed for one selected link (lines 140-290):
`none` models the uncaught `IndexError` path. -/
def workset_name_for (addOrig addZone : Bool) (all_rvt_link_names : List String)
    (file_name : String) (linkFullName : String) : Option String :=
  let link_name := linkBaseName linkFullName
  let label := linkedFileLabel linkFullName
  match re_match_linkName link_name with
  | some p =>
    let inst0 := p.discipline ++ originatorPart addOrig p.discipline p.originator ++
      zonePart addZone p.zone
    let bn := rl_base_name link_name p.digits p.description
    assembleWorksetName label inst0
      (digitsSuffix (similarLinkNames all_rvt_link_names file_name link_name bn)
        p.digits p.discipline bn)
  | none => some (label ++ link_name)

lemma startsWithList_append (p rest : List Char) :
    startsWithList p (p ++ rest) = true := by
  induction p with
  | nil => rfl
  | cons c cs ih => simp [startsWithList, ih]

lemma startsWithList_of_eq {t s tail : List Char} (h : s = t ++ tail) :
    startsWithList t s = true := by
  subst h
  exact startsWithList_append t tail

lemma data_mk (l : List Char) : (String.mk l).data = l := rfl

lemma dash_data : ("-" : String).data = ['-'] := rfl

lemma mem_takeWhile_word {q : Char → Bool} {l : List Char} :
    ∀ c ∈ l.takeWhile q, q c = true := by
  induction l with
  | nil => simp
  | cons d r ih =>
    by_cases hd : q d
    · simp only [List.takeWhile_cons, hd, if_true]
      intro c hc
      rcases List.mem_cons.mp hc with rfl | hc
      · exact hd
      · exact ih c hc
    · simp [List.takeWhile_cons, hd]

lemma parseFieldDash_sound {cs : List Char} {w : String} {r : List Char}
    (h : parseFieldDash cs = some (w, r)) :
    w.data ≠ [] ∧ (∀ c ∈ w.data, isWordChar c = true) ∧
      cs = w.data ++ '-' :: r := by
  simp only [parseFieldDash] at h
  by_cases he : (cs.takeWhile isWordChar).isEmpty
  · simp [he] at h
  · rw [if_neg he] at h
    cases hr : cs.dropWhile isWordChar with
    | nil => rw [hr] at h; cases h
    | cons c r2 =>
      rw [hr] at h
      dsimp only at h
      by_cases hc : c = '-'
      · rw [if_pos hc] at h
        simp only [Option.some.injEq, Prod.mk.injEq] at h
        obtain ⟨hw, hr2⟩ := h
        subst hc
        refine ⟨?_, ?_, ?_⟩
        · rw [← hw]
          simpa [List.isEmpty_iff] using he
        · rw [← hw]
          exact mem_takeWhile_word
        · rw [← hw, ← hr2]
          show cs = cs.takeWhile isWordChar ++ '-' :: r2
          rw [← hr]
          exact (List.takeWhile_append_dropWhile _ _).symm
      · rw [if_neg hc] at h
        cases h

lemma re_match_linkName_sound {s : String} {p : LinkParts}
    (h : re_match_linkName s = some p) :
    (∀ f ∈ [p.f1, p.originator, p.zone, p.f4, p.f5, p.discipline],
        f.data ≠ [] ∧ ∀ c ∈ f.data, isWordChar c = true) ∧
    p.digits.data ≠ [] ∧ (∀ c ∈ p.digits.data, c.isDigit = true) ∧
    (∀ c ∈ p.description.data, (isWordChar c || c.isWhitespace) = true) ∧
    strStartsWith s (p.f1 ++ "-" ++ p.originator ++ "-" ++ p.zone ++ "-" ++
      p.f4 ++ "-" ++ p.f5 ++ "-" ++ p.discipline ++ "-" ++ p.digits ++
      p.description) = true := by
  unfold re_match_linkName at h
  cases h1 : parseFieldDash s.data with
  | none => rw [h1] at h; cases h
  | some pr1 =>
  obtain ⟨a1, r1⟩ := pr1
  rw [h1] at h
  dsimp only at h
  cases h2 : parseFieldDash r1 with
  | none => rw [h2] at h; cases h
  | some pr2 =>
  obtain ⟨a2, r2⟩ := pr2
  rw [h2] at h
  dsimp only at h
  cases h3 : parseFieldDash r2 with
  | none => rw [h3] at h; cases h
  | some pr3 =>
  obtain ⟨a3, r3⟩ := pr3
  rw [h3] at h
  dsimp only at h
  cases h4 : parseFieldDash r3 with
  | none => rw [h4] at h; cases h
  | some pr4 =>
  obtain ⟨a4, r4⟩ := pr4
  rw [h4] at h
  dsimp only at h
  cases h5 : parseFieldDash r4 with
  | none => rw [h5] at h; cases h
  | some pr5 =>
  obtain ⟨a5, r5⟩ := pr5
  rw [h5] at h
  dsimp only at h
  cases h6 : parseFieldDash r5 with
  | none => rw [h6] at h; cases h
  | some pr6 =>
  obtain ⟨a6, r6⟩ := pr6
  rw [h6] at h
  dsimp only at h
  by_cases hds : (r6.takeWhile Char.isDigit).isEmpty
  · simp [hds] at h
  · rw [if_neg hds] at h
    simp only [Option.some.injEq] at h
    subst h
    obtain ⟨hw1, hm1, he1⟩ := parseFieldDash_sound h1
    obtain ⟨hw2, hm2, he2⟩ := parseFieldDash_sound h2
    obtain ⟨hw3, hm3, he3⟩ := parseFieldDash_sound h3
    obtain ⟨hw4, hm4, he4⟩ := parseFieldDash_sound h4
    obtain ⟨hw5, hm5, he5⟩ := parseFieldDash_sound h5
    obtain ⟨hw6, hm6, he6⟩ := parseFieldDash_sound h6
    refine ⟨?_, ?_, ?_, ?_, ?_⟩
    · intro f hf
      simp only [List.mem_cons, List.not_mem_nil, or_false] at hf
      rcases hf with rfl | rfl | rfl | rfl | rfl | rfl
      · exact ⟨hw1, hm1⟩
      · exact ⟨hw2, hm2⟩
      · exact ⟨hw3, hm3⟩
      · exact ⟨hw4, hm4⟩
      · exact ⟨hw5, hm5⟩
      · exact ⟨hw6, hm6⟩
    · simpa [List.isEmpty_iff] using hds
    · exact mem_takeWhile_word
    · exact mem_takeWhile_word
    · have hr6 : r6 = r6.takeWhile Char.isDigit ++
          ((r6.dropWhile Char.isDigit).takeWhile
            (fun c => isWordChar c || c.isWhitespace) ++
          (r6.dropWhile Char.isDigit).dropWhile
            (fun c => isWordChar c || c.isWhitespace)) := by
        rw [List.takeWhile_append_dropWhile, List.takeWhile_append_dropWhile]
      unfold strStartsWith
      dsimp only
      refine @startsWithList_of_eq _ _
        ((r6.dropWhile Char.isDigit).dropWhile
          (fun c => isWordChar c || c.isWhitespace)) ?_
      rw [he1, he2, he3, he4, he5, he6]
      conv_lhs => rw [hr6]
      simp [String.data_append, data_mk, dash_data, List.append_assoc]

lemma assembleWorksetName_shape {label inst0 : String} {dres : DigitsRes} {w : String}
    (h : assembleWorksetName label inst0 dres = some w) :
    ∃ s, w = label ++ inst0 ++ s ∧ (s = "" ∨ ∃ d, s = "-" ++ d) := by
  cases dres with
  | crash => cases h
  | noSuffix =>
    refine ⟨"", ?_, Or.inl rfl⟩
    simp only [assembleWorksetName, Option.some.injEq] at h
    rw [← h, String.append_empty]
  | suffix d =>
    refine ⟨"-" ++ d, ?_, Or.inr ⟨d, rfl⟩⟩
    simp only [assembleWorksetName, Option.some.injEq] at h
    rw [← h, String.append_assoc]

/-- C5 (amended): when the stripped link name matches the naming-convention
regex, the captured fields are a decomposition of the name (six non-empty
hyphen-separated word fields, the seventh field a non-empty digit run, then
an optional word/space description, together forming a prefix of the name —
see `re_match_linkName_sound`), and whenever the script completes, the
generated workset name is the prefix `Z-Linked <extension>-` followed by the
discipline, the optional originator (`""` or `-originator`), the optional
zone (`""` or `-zone`) and an optional `-digits` suffix.  When the stripped
name does not match, the workset name is the prefix followed by the stripped
name — but the stripping itself only removes the extension via a
case-sensitive split on the lower-case `".rvt"`/`".ifc"` (see the
counterexample). -/
theorem rvt_link_workset_name (addOrig addZone : Bool) (names : List String)
    (file linkFull : String) :
    (∀ p, re_match_linkName (linkBaseName linkFull) = some p →
      (originatorPart addOrig p.discipline p.originator = "" ∨
        originatorPart addOrig p.discipline p.originator = "-" ++ p.originator) ∧
      (zonePart addZone p.zone = "" ∨ zonePart addZone p.zone = "-" ++ p.zone) ∧
      (∀ c ∈ p.digits.data, c.isDigit = true) ∧
      strStartsWith (linkBaseName linkFull) (p.f1 ++ "-" ++ p.originator ++ "-" ++
        p.zone ++ "-" ++ p.f4 ++ "-" ++ p.f5 ++ "-" ++ p.discipline ++ "-" ++
        p.digits ++ p.description) = true ∧
      ∀ w, workset_name_for addOrig addZone names file linkFull = some w →
        ∃ s, w = linkedFileLabel linkFull ++
            (p.discipline ++ originatorPart addOrig p.discipline p.originator ++
              zonePart addZone p.zone) ++ s ∧
          (s = "" ∨ ∃ d, s = "-" ++ d)) ∧
    (re_match_linkName (linkBaseName linkFull) = none →
      workset_name_for addOrig addZone names file linkFull =
        some (linkedFileLabel linkFull ++ linkBaseName linkFull)) := by
  constructor
  · intro p hp
    obtain ⟨_, _, hdig, _, hpre⟩ := re_match_linkName_sound hp
    refine ⟨?_, ?_, hdig, hpre, ?_⟩
    · unfold originatorPart
      split_ifs <;> simp
    · unfold zonePart
      split_ifs <;> simp
    · intro w hw
      unfold workset_name_for at hw
      dsimp only at hw
      rw [hp] at hw
      dsimp only at hw
      exact assembleWorksetName_shape hw
  · intro hnone
    simp only [workset_name_for, hnone]

/-- C5 counterexample: the link `"My Model.RVT"` does not match the naming
convention; the claim then requires the workset name
`"Z-Linked RVT-" ++ "My Model"` (extension removed), but the code's split on
the case-sensitive lower-case `".rvt"` never fires on `".RVT"` and the whole
name including the extension is kept. -/
theorem rvt_link_workset_name_counterexample :
    re_match_linkName (linkBaseName "My Model.RVT") = none ∧
    workset_name_for true true [] "Title" "My Model.RVT" =
      some "Z-Linked RVT-My Model.RVT" ∧
    "Z-Linked RVT-My Model.RVT" ≠ "Z-Linked RVT-" ++ "My Model" := by
  refine ⟨by decide, by decide, by decide⟩

/-- Witness for C5 at the convention-matching link
`"GSK-HTL-RE-ZZ-M3-A-0001.rvt"`. -/
theorem rvt_link_workset_name_witness :
    ∃ s, "Z-Linked RVT-A" = linkedFileLabel "GSK-HTL-RE-ZZ-M3-A-0001.rvt" ++
        ("A" ++ originatorPart false "A" "HTL" ++ zonePart false "RE") ++ s ∧
      (s = "" ∨ ∃ d, s = "-" ++ d) :=
  ((((rvt_link_workset_name false false [] "T" "GSK-HTL-RE-ZZ-M3-A-0001.rvt").1
    ⟨"GSK", "HTL", "RE", "ZZ", "M3", "A", "0001", ""⟩ (by decide)).2.2.2.2)
    "Z-Linked RVT-A" (by decide))

/-! ## Script traces

Each mutating script's control flow is modelled as a function from its run
parameters (collections found, user answers, per-element failure oracles) to
the sequence of observable events, at the granularity the temporal claims
need: modal dialogs, transaction boundaries, model mutations, logging and
plain output. -/

/-- Observable events of a script run.  `mut` covers the claims' model
mutations: element deletion, parameter set, workset creation and workset
deletion.  `enableWS` is the `doc.EnableWorksharing(...)` call, which
converts the document to workshared and creates its two initial worksets.
`fail` marks an operation raising an uncaught exception. -/
inductive Ev
  | dialog
  | txOpen
  | txCommit
  | txRollback
  | mut
  | enableWS
  | log
  | note
  | fail
deriving Repr, DecidableEq

/-- A `with revit.Transaction(...)` block that completes normally. -/
def txBlock (body : List Ev) : List Ev := [Ev.txOpen] ++ body ++ [Ev.txCommit]

/-- Scan a trace left to right, tracking whether a transaction is open;
`none` when some mutation occurs with no open transaction. -/
def scanTx : List Ev → Bool → Option Bool
  | [], b => some b
  | Ev.txOpen :: r, _ => scanTx r true
  | Ev.txCommit :: r, _ => scanTx r false
  | Ev.txRollback :: r, _ => scanTx r false
  | Ev.mut :: r, b => if b then scanTx r b else none
  | _ :: r, b => scanTx r b

/-- Every `mut` event of the trace lies inside an open transaction. -/
def mutationsInTx (t : List Ev) : Bool := (scanTx t false).isSome

/-- Events that neither open nor close a transaction. -/
def isPlain (e : Ev) : Bool :=
  !(e == Ev.txOpen || e == Ev.txCommit || e == Ev.txRollback)

lemma scanTx_append (xs ys : List Ev) :
    ∀ b, scanTx (xs ++ ys) b = (scanTx xs b).bind (scanTx ys) := by
  induction xs with
  | nil => intro b; rfl
  | cons e r ih =>
    intro b
    cases e <;> simp only [List.cons_append, scanTx] <;>
      first
        | exact ih _
        | (split_ifs <;> simp [ih])

lemma scanTx_plain_true (l : List Ev) (h : ∀ e ∈ l, isPlain e = true) :
    scanTx l true = some true := by
  induction l with
  | nil => rfl
  | cons e r ih =>
    have he := h e (by simp)
    have hr := ih (fun e' he' => h e' (by simp [he']))
    cases e <;> simp [isPlain] at he ⊢ <;> simp [scanTx, hr]

lemma scanTx_nonmut (l : List Ev)
    (h : ∀ e ∈ l, isPlain e = true ∧ e ≠ Ev.mut) :
    ∀ b, scanTx l b = some b := by
  induction l with
  | nil => intro b; rfl
  | cons e r ih =>
    intro b
    have he := h e (by simp)
    have hr := ih (fun e' he' => h e' (by simp [he']))
    cases e <;> simp [isPlain] at he <;> simp [scanTx, hr]

lemma scanTx_txBlock (body : List Ev) (h : ∀ e ∈ body, isPlain e = true) (b : Bool) :
    scanTx (txBlock body) b = some false := by
  show scanTx (Ev.txOpen :: (body ++ [Ev.txCommit])) b = some false
  rw [scanTx, scanTx_append, scanTx_plain_true body h]
  rfl

lemma mutationsInTx_append_of {xs ys : List Ev} {b : Bool}
    (hx : scanTx xs false = some b) (hy : (scanTx ys b).isSome = true) :
    mutationsInTx (xs ++ ys) = true := by
  unfold mutationsInTx
  rw [scanTx_append, hx]
  exact hy

/-- Every `txOpen` in the trace is preceded by some earlier dialog. -/
def dbtAux : List Ev → Bool → Bool
  | [], _ => true
  | Ev.dialog :: r, _ => dbtAux r true
  | Ev.txOpen :: r, seen => seen && dbtAux r seen
  | _ :: r, seen => dbtAux r seen

def dialogBeforeTx (t : List Ev) : Bool := dbtAux t false

lemma dbtAux_true (l : List Ev) : dbtAux l true = true := by
  induction l with
  | nil => rfl
  | cons e r ih => cases e <;> simp [dbtAux, ih]

lemma dialogBeforeTx_dialog (l : List Ev) :
    dialogBeforeTx (Ev.dialog :: l) = true := by
  simp [dialogBeforeTx, dbtAux, dbtAux_true]

/-! ### Traces of the individual scripts -/

/-- Purge Images, deletion loop (lines 35-42): the image name is recorded,
then `doc.Delete` runs with no try/except — the first failing delete raises
and the remaining images are never attempted. -/
def purgeImagesLoop (delOk : Nat → Bool) : List Nat → List Ev
  | [] => []
  | i :: r => if delOk i then Ev.mut :: purgeImagesLoop delOk r else [Ev.fail]

/-- Purge Images (`Purge Images.pushbutton/script.py`): confirmation alert
(cancel exits), then on Yes one transaction collecting and deleting all
image types; on success the names are printed (no alert), on an exception
the transaction context rolls back and the report is skipped. -/
def purgeImagesTrace (purge : Bool) (images : List Nat) (delOk : Nat → Bool) : List Ev :=
  [Ev.dialog] ++
    (if purge then
      [Ev.txOpen] ++ purgeImagesLoop delOk images ++
        (if images.all delOk then [Ev.txCommit, Ev.note] else [Ev.txRollback])
    else [])

/-- PinLinksAndGrids (`PinLinksAndGrids.pushbutton/script.py`): no dialog at
all; one transaction pinning every grid and level. -/
def pinLinksAndGridsTrace (grids levels : List Nat) : List Ev :=
  [Ev.txOpen] ++ (grids ++ levels).map (fun _ => Ev.mut) ++ [Ev.txCommit]

/-- Id TagNumber (`Id TagNumber.pushbutton/script.py`): no dialog; one
transaction setting `COBie.Component.TagNumber` on every COBie element whose
parameter is writable. -/
def idTagNumberTrace (elems : List Nat) (settable : Nat → Bool) : List Ev :=
  [Ev.txOpen] ++ elems.map (fun e => if settable e then Ev.mut else Ev.note) ++
    [Ev.txCommit]

/-- CAD Worksets (`CAD Worksets.pushbutton/script.py`): alert-exit when no
CAD links or the project is not workshared (but could be); alert-exit when
nothing is wrong; otherwise the selection dialog, and only for a non-empty
selection one transaction (creating the workset if missing, then one
parameter set per matching instance), followed by the completion alert. -/
def cadWorksetsTrace (anyCads workshared canEnable anyIncorrect : Bool)
    (sel : List Nat) (wsExists : Bool) : List Ev :=
  if !anyCads then [Ev.dialog]
  else if !workshared && canEnable then [Ev.dialog]
  else if !anyIncorrect then [Ev.dialog]
  else
    [Ev.dialog] ++
      (if sel ≠ [] then
        txBlock ((if !wsExists then [Ev.mut] else []) ++
          (sel.map (fun n => List.replicate n Ev.mut)).flatten) ++ [Ev.dialog]
      else [])

/-- One selected link of RVT Link Worksets: either no workset with the new
name exists (one transaction creating it and setting the parameters, errors
printed inside), or an existing one is reused with up to two corrective
transactions. -/
inductive LinkCase
  | createWs (ok : Bool)
  | useExisting (fixInst fixType : Bool)
deriving Repr, DecidableEq

/-- Trace of one link's processing (lines 312-375). -/
def linkTrace (ver2023 : Bool) : LinkCase → List Ev
  | .createWs ok =>
    txBlock (if ok then
        (if ver2023 then [Ev.mut, Ev.mut, Ev.mut, Ev.mut] else [Ev.mut, Ev.mut, Ev.mut])
      else [Ev.note])
  | .useExisting fixInst fixType =>
    (if fixInst then
      txBlock (if ver2023 then [Ev.mut, Ev.mut, Ev.mut] else [Ev.mut, Ev.mut])
    else []) ++
    (if fixType then txBlock [Ev.mut] else [])

/-- The unused-workset cleanup (lines 377-460): for Revit 2023+ a
confirmation dialog and, on Yes, one transaction deleting each editable
workset (the summary alert sits inside the transaction block). -/
def unusedWorksetsPhase (ver2023 delYes : Bool) (unused : List Bool) : List Ev :=
  if unused ≠ [] then
    if ver2023 then
      [Ev.dialog] ++
        (if delYes then
          txBlock ((unused.map (fun ed => if ed then Ev.mut else Ev.note)) ++ [Ev.dialog])
        else [])
    else [Ev.dialog]
  else []

/-- The part of RVT Link Worksets guarded by `if revit_links_selected:`
(lines 92-460): the link selector dialog, then for a non-empty selection the
originator and zone questions, the per-link processing and the cleanup. -/
def rvtLinkMain (ver2023 : Bool) (selected : List LinkCase) (unused : List Bool)
    (delYes : Bool) : List Ev :=
  [Ev.dialog] ++
    (if selected ≠ [] then
      [Ev.dialog, Ev.dialog] ++ (selected.map (linkTrace ver2023)).flatten ++
        unusedWorksetsPhase ver2023 delYes unused
    else [])

/-- RVT Link Worksets (`RVT Link Worksets.pushbutton/script.py`): alert-exit
when no links; when the project is not workshared but could be, a question
dialog and — on Yes — the `EnableWorksharing` call, outside any
transaction (lines 36-45); alert-exit when worksharing is impossible. -/
def rvtLinkWorksetsTrace (anyLinks workshared canEnable enableYes ver2023 : Bool)
    (selected : List LinkCase) (unused : List Bool) (delYes : Bool) : List Ev :=
  if !anyLinks then [Ev.dialog]
  else if !workshared && canEnable then
    [Ev.dialog] ++ (if enableYes then [Ev.enableWS] else []) ++
      rvtLinkMain ver2023 selected unused delYes
  else if !workshared && !canEnable then [Ev.dialog]
  else rvtLinkMain ver2023 selected unused delYes

/-- Identical Instances, deletion phase (lines 297-329): each delete is
wrapped in try/except, failures are logged and the loop continues. -/
def identicalInstancesDeleteEvents (delOk : Nat → Bool) (ids : List Nat) : List Ev :=
  ids.map (fun i => if delOk i then Ev.mut else Ev.log)

/-- Identical Instances (`Identical Instances.pushbutton/script.py`): the
option window first; `Cancel & Exit` stops the script; otherwise, when the
deletion set is non-empty, one transaction deleting each element
(failures logged), then an alert only when at least one element was actually
deleted; the summary always goes to the logger, not a dialog. -/
def identicalInstancesTrace (cancelExit : Bool) (toDelete : List Nat)
    (delOk : Nat → Bool) : List Ev :=
  [Ev.dialog] ++
    (if cancelExit then []
     else
      (if toDelete ≠ [] then
        txBlock (identicalInstancesDeleteEvents delOk toDelete) ++
          (if 1 ≤ (toDelete.filter delOk).length then [Ev.dialog] else [])
      else []) ++ [Ev.log])

/-- Delete Views (`Delete Views.pushbutton/script.py`): alert-exit when
nothing valid is selected; otherwise the classification runs and one
transaction deletes the unused views (each wrapped in try/except, failures
logged) with the count alert inside the block — there is no confirmation
dialog before it; then the optional template question with its own
transaction, and the report. -/
def deleteViewsTrace (sel : List VInfo) (delOk : Nat → Bool)
    (tmplUnused : List Nat) (tmplYes : Bool) : List Ev :=
  if sel = [] then [Ev.dialog]
  else
    txBlock (((classifyViews sel).1.map
        (fun v => if delOk v.id then Ev.mut else Ev.log)) ++ [Ev.dialog]) ++
      (if tmplUnused ≠ [] then
        [Ev.dialog] ++ (if tmplYes then txBlock (tmplUnused.map (fun _ => Ev.mut)) else [])
      else []) ++
      (classifyViews sel).2.map (fun _ => Ev.note)

/-- The selection/confirmation/deletion phase shared by Delete Legends
(lines 108-128). -/
def deleteLegendsMain (selected : List Nat) (confirmYes : Bool) : List Ev :=
  [Ev.dialog] ++
    (if selected ≠ [] then
      [Ev.dialog] ++
        (if confirmYes then txBlock (selected.map (fun _ => Ev.mut)) ++ [Ev.dialog]
         else [])
    else [])

/-- Delete Legends (`Delete Legends.pushbutton/script.py`). -/
def deleteLegendsTrace (selEmpty selectAllYes anyLegends : Bool)
    (selected : List Nat) (confirmYes : Bool) : List Ev :=
  if selEmpty then
    [Ev.dialog] ++
      (if selectAllYes then
        (if !anyLegends then [Ev.dialog]
         else deleteLegendsMain selected confirmYes)
       else deleteLegendsMain [] confirmYes)
  else
    (if !anyLegends then [Ev.dialog] else deleteLegendsMain selected confirmYes)

/-- Delete Schedules (`Delete Schedules.pushbutton/script.py`): like Delete
Legends but with a final alert on both confirmation outcomes. -/
def deleteSchedulesTrace (selEmpty selectAllYes : Bool) (selected : List Nat)
    (confirmYes : Bool) : List Ev :=
  (if selEmpty then [Ev.dialog] else []) ++
    [Ev.dialog] ++
    (if selected ≠ [] then
      [Ev.dialog] ++
        (if confirmYes then txBlock (selected.map (fun _ => Ev.mut)) ++ [Ev.dialog]
         else [Ev.dialog])
    else [])

/-- Delete Sheets (`Delete Sheets.pushbutton/script.py`): alert-exit when no
sheets selected; otherwise the switch window and, when any switch is on, one
transaction for all deletions, then the confirmation alert. -/
def deleteSheetsTrace (selEmpty anyToggled : Bool) (nDel : Nat) : List Ev :=
  if selEmpty then [Ev.dialog]
  else
    [Ev.dialog] ++
      (if anyToggled then txBlock (List.replicate nDel Ev.mut) else []) ++ [Ev.dialog]

/-- The two parameter cleaners (`Project Parameters Cleaner` and
`Shared Parameters Cleaner`) share this shape: selection of parameters to
check, then of parameters to delete; one transaction with each delete in
try/except (failures logged); afterwards an alert naming the deleted
parameters — the `DELETED[0]` access raises when every delete failed, so no
alert appears in that case. -/
def paramsCleanerTrace (anyParams : Bool) (checked : List Nat)
    (selected : List Nat) (delOk : Nat → Bool) : List Ev :=
  if !anyParams then [Ev.dialog]
  else
    [Ev.dialog] ++
      (if checked ≠ [] then
        [Ev.dialog] ++
          (if selected ≠ [] then
            txBlock (selected.map (fun i => if delOk i then Ev.mut else Ev.log)) ++
              (if 1 ≤ (selected.filter delOk).length then [Ev.dialog] else [Ev.fail])
          else [Ev.dialog])
      else [Ev.dialog])

/-- Remove Unused Filters (`Remove Unused Filters.pushbutton/script.py`):
the view-selection dialog; for a non-empty selection one transaction
removing the unused filters view by view (per-view try/except collecting
errors), then the printed summary. -/
def removeUnusedFiltersTrace (selected : List Nat) (nRemoved : Nat → Nat) : List Ev :=
  [Ev.dialog] ++
    (if selected ≠ [] then
      txBlock ((selected.map (fun v => List.replicate (nRemoved v) Ev.mut)).flatten) ++
        [Ev.note]
    else [])

/-- Workset Views (`Workset Views.pushbutton/script.py`): an alert when the
project has no worksets; otherwise the template selection dialog and, for a
chosen template, one transaction (optionally asking inside it about deleting
old workset views) creating views and setting visibilities, then the final
alert when anything was created or updated. -/
def worksetViewsTrace (noWorksets tmplChosen : Bool) (oldViews : Nat)
    (delOldYes : Bool) (ops : Nat) (finalMsg : Bool) : List Ev :=
  if noWorksets then [Ev.dialog]
  else
    [Ev.dialog] ++
      (if tmplChosen then
        txBlock ((if 0 < oldViews then
            Ev.dialog :: (if delOldYes then List.replicate oldViews Ev.mut else [])
          else []) ++ List.replicate ops Ev.mut) ++
          (if finalMsg then [Ev.dialog] else [])
      else [])

/-- Add Size (`Add Size.pushbutton/script.py`): the groups question first
(cancel exits), then one transaction setting the three COBie type
parameters where present. -/
def addSizeTrace (types : List Bool) : List Ev :=
  [Ev.dialog] ++ txBlock (types.map (fun ok => if ok then Ev.mut else Ev.note))

/-- Merge TopoSolids (`Merge TopoSolids.pushbutton/script.py`): the whole
body, including the element picking and the delete question, runs inside
one transaction; exceptions are caught and logged inside, except a cancelled
pick which exits and rolls the transaction back. -/
def mergeTopoSolidsTrace (pickOk created delYes : Bool) (n : Nat) : List Ev :=
  if pickOk then
    txBlock ([Ev.dialog] ++
      (if created then
        Ev.mut :: (if delYes then Ev.dialog :: List.replicate n Ev.mut else [Ev.dialog])
      else [Ev.log]))
  else [Ev.txOpen, Ev.dialog, Ev.log, Ev.txRollback]

/-- To TopoSurface (`To TopoSurface.pushbutton/script.py`): same shape with
a single creation. -/
def toTopoSurfaceTrace (pickOk created : Bool) : List Ev :=
  if pickOk then
    txBlock ([Ev.dialog] ++ (if created then [Ev.mut, Ev.log] else [Ev.log]))
  else [Ev.txOpen, Ev.dialog, Ev.log, Ev.txRollback]

/-! ### Transaction discipline of the traces -/

lemma plain_append {l1 l2 : List Ev} (h1 : ∀ e ∈ l1, isPlain e = true)
    (h2 : ∀ e ∈ l2, isPlain e = true) : ∀ e ∈ l1 ++ l2, isPlain e = true := by
  intro e he
  rcases List.mem_append.mp he with h | h
  · exact h1 e h
  · exact h2 e h

lemma plain_map {α : Type} (f : α → Ev) (l : List α)
    (hf : ∀ x, isPlain (f x) = true) : ∀ e ∈ l.map f, isPlain e = true := by
  intro e he
  obtain ⟨x, _, rfl⟩ := List.mem_map.mp he
  exact hf x

lemma plain_replicate (n : Nat) (e : Ev) (he : isPlain e = true) :
    ∀ x ∈ List.replicate n e, isPlain x = true := by
  intro x hx
  rw [List.eq_of_mem_replicate hx]
  exact he

lemma plain_flatten {ls : List (List Ev)}
    (h : ∀ l ∈ ls, ∀ e ∈ l, isPlain e = true) :
    ∀ e ∈ ls.flatten, isPlain e = true := by
  intro e he
  obtain ⟨l, hl, hel⟩ := List.mem_flatten.mp he
  exact h l hl e hel

lemma plain_ite {c : Prop} [Decidable c] {l1 l2 : List Ev}
    (h1 : ∀ e ∈ l1, isPlain e = true) (h2 : ∀ e ∈ l2, isPlain e = true) :
    ∀ e ∈ (if c then l1 else l2), isPlain e = true := by
  split_ifs <;> assumption

lemma isSome_of_eq {o : Option Bool} {b : Bool} (h : o = some b) : o.isSome = true := by
  rw [h]
  rfl

lemma scanTx_nil : scanTx ([] : List Ev) false = some false := rfl

lemma scanTx_append_closed {l1 l2 : List Ev} (h1 : scanTx l1 false = some false)
    (h2 : scanTx l2 false = some false) : scanTx (l1 ++ l2) false = some false := by
  rw [scanTx_append, h1]
  exact h2

lemma scanTx_flatten_closed {ls : List (List Ev)}
    (h : ∀ l ∈ ls, scanTx l false = some false) :
    scanTx ls.flatten false = some false := by
  induction ls with
  | nil => rfl
  | cons l rest ih =>
    rw [List.flatten_cons]
    exact scanTx_append_closed (h l (by simp))
      (ih (fun l' hl' => h l' (by simp [hl'])))

lemma scanTx_ite_closed {c : Prop} [Decidable c] {l1 l2 : List Ev}
    (h1 : scanTx l1 false = some false) (h2 : scanTx l2 false = some false) :
    scanTx (if c then l1 else l2) false = some false := by
  split_ifs <;> assumption

lemma scanTx_ite_closed_isSome {c : Prop} [Decidable c] {l1 l2 : List Ev}
    (h1 : (scanTx l1 false).isSome = true) (h2 : (scanTx l2 false).isSome = true) :
    (scanTx (if c then l1 else l2) false).isSome = true := by
  split_ifs <;> assumption

lemma scanTx_dialog_cons {l : List Ev} (h : scanTx l false = some false) :
    scanTx (Ev.dialog :: l) false = some false := h

lemma scanTx_txBlock_closed {body : List Ev} (h : ∀ e ∈ body, isPlain e = true) :
    scanTx (txBlock body) false = some false := scanTx_txBlock body h false

lemma purgeImagesLoop_plain (delOk : Nat → Bool) (l : List Nat) :
    ∀ e ∈ purgeImagesLoop delOk l, isPlain e = true := by
  induction l with
  | nil => simp [purgeImagesLoop]
  | cons i r ih =>
    intro e he
    unfold purgeImagesLoop at he
    split_ifs at he
    · rcases List.mem_cons.mp he with rfl | h
      · rfl
      · exact ih e h
    · simp at he
      subst he
      rfl

lemma purgeImagesTrace_tx (purge : Bool) (images : List Nat) (delOk : Nat → Bool) :
    mutationsInTx (purgeImagesTrace purge images delOk) = true := by
  unfold purgeImagesTrace mutationsInTx
  refine isSome_of_eq (b := false) ?_
  apply scanTx_dialog_cons
  refine scanTx_ite_closed ?_ (by decide)
  show scanTx (Ev.txOpen :: (purgeImagesLoop delOk images ++ _)) false = some false
  rw [scanTx, scanTx_append, scanTx_plain_true _ (purgeImagesLoop_plain delOk images)]
  show scanTx (if images.all delOk then [Ev.txCommit, Ev.note] else [Ev.txRollback]) true =
    some false
  split_ifs <;> rfl

lemma pinLinksAndGridsTrace_tx (grids levels : List Nat) :
    mutationsInTx (pinLinksAndGridsTrace grids levels) = true := by
  unfold pinLinksAndGridsTrace mutationsInTx
  refine isSome_of_eq (b := false) ?_
  exact scanTx_txBlock_closed (plain_map _ _ (fun _ => rfl))

lemma idTagNumberTrace_tx (elems : List Nat) (settable : Nat → Bool) :
    mutationsInTx (idTagNumberTrace elems settable) = true := by
  unfold idTagNumberTrace mutationsInTx
  refine isSome_of_eq (b := false) ?_
  refine scanTx_txBlock_closed (plain_map _ _ (fun x => ?_))
  split_ifs <;> rfl

lemma plain_map_ifML {α : Type} (p : α → Bool) (l : List α) :
    ∀ e ∈ l.map (fun a => if p a then Ev.mut else Ev.log), isPlain e = true := by
  intro e he
  obtain ⟨a, _, rfl⟩ := List.mem_map.mp he
  split_ifs <;> rfl

lemma plain_map_ifMN {α : Type} (p : α → Bool) (l : List α) :
    ∀ e ∈ l.map (fun a => if p a then Ev.mut else Ev.note), isPlain e = true := by
  intro e he
  obtain ⟨a, _, rfl⟩ := List.mem_map.mp he
  split_ifs <;> rfl

lemma plain_map_mut {α : Type} (l : List α) :
    ∀ e ∈ l.map (fun _ => Ev.mut), isPlain e = true :=
  plain_map _ _ (fun _ => rfl)

lemma scanTx_map_note {α : Type} (l : List α) (b : Bool) :
    scanTx (l.map (fun _ => Ev.note)) b = some b := by
  refine scanTx_nonmut _ (fun e he => ?_) b
  obtain ⟨x, _, rfl⟩ := List.mem_map.mp he
  exact ⟨rfl, by simp⟩

lemma plain_nil : ∀ e ∈ ([] : List Ev), isPlain e = true := by
  intro e he
  simp at he

lemma plain_one_mut : ∀ e ∈ [Ev.mut], isPlain e = true := by decide

lemma plain_one_dialog : ∀ e ∈ [Ev.dialog], isPlain e = true := by decide

lemma plain_flatten_repl_mut (sel : List Nat) :
    ∀ e ∈ (sel.map (fun n => List.replicate n Ev.mut)).flatten, isPlain e = true :=
  plain_flatten (fun l hl => by
    obtain ⟨n, _, rfl⟩ := List.mem_map.mp hl
    exact plain_replicate n Ev.mut rfl)

lemma cadWorksetsTrace_tx (anyCads workshared canEnable anyIncorrect : Bool)
    (sel : List Nat) (wsExists : Bool) :
    mutationsInTx (cadWorksetsTrace anyCads workshared canEnable anyIncorrect sel wsExists) =
      true := by
  unfold cadWorksetsTrace mutationsInTx
  split_ifs <;> try rfl
  all_goals refine isSome_of_eq (b := false) ?_
  all_goals apply scanTx_dialog_cons
  all_goals simp only [List.append_eq, List.nil_append]
  all_goals first
    | refine scanTx_append_closed (scanTx_txBlock_closed (plain_append ?_ (plain_flatten_repl_mut sel))) ?_
    | refine scanTx_append_closed (scanTx_txBlock_closed (plain_flatten_repl_mut sel)) ?_
  all_goals first
    | exact plain_one_mut
    | rfl

lemma linkTrace_tx (ver2023 : Bool) (c : LinkCase) :
    scanTx (linkTrace ver2023 c) false = some false := by
  cases c with
  | createWs ok =>
    refine scanTx_txBlock_closed ?_
    split_ifs <;> decide
  | useExisting fixInst fixType =>
    unfold linkTrace
    refine scanTx_append_closed ?_ ?_ <;> split_ifs <;>
      first
        | rfl
        | (refine scanTx_txBlock_closed ?_; decide)

lemma unusedWorksetsPhase_tx (ver2023 delYes : Bool) (unused : List Bool) :
    scanTx (unusedWorksetsPhase ver2023 delYes unused) false = some false := by
  unfold unusedWorksetsPhase
  split_ifs <;> try rfl
  apply scanTx_dialog_cons
  refine scanTx_txBlock_closed ?_
  refine plain_append (plain_map _ _ (fun x => ?_)) ?_
  · split_ifs <;> rfl
  · decide

lemma rvtLinkMain_tx (ver2023 : Bool) (selected : List LinkCase) (unused : List Bool)
    (delYes : Bool) :
    scanTx (rvtLinkMain ver2023 selected unused delYes) false = some false := by
  unfold rvtLinkMain
  split_ifs <;> try rfl
  apply scanTx_dialog_cons
  apply scanTx_dialog_cons
  apply scanTx_dialog_cons
  refine scanTx_append_closed ?_ (unusedWorksetsPhase_tx ver2023 delYes unused)
  refine scanTx_flatten_closed (fun l hl => ?_)
  obtain ⟨c, _, rfl⟩ := List.mem_map.mp hl
  exact linkTrace_tx ver2023 c

lemma rvtLinkWorksetsTrace_tx (anyLinks workshared canEnable enableYes ver2023 : Bool)
    (selected : List LinkCase) (unused : List Bool) (delYes : Bool) :
    mutationsInTx (rvtLinkWorksetsTrace anyLinks workshared canEnable enableYes ver2023
      selected unused delYes) = true := by
  unfold rvtLinkWorksetsTrace mutationsInTx
  split_ifs <;> refine isSome_of_eq (b := false) ?_ <;>
    first
      | rfl
      | exact rvtLinkMain_tx ver2023 selected unused delYes

lemma identicalInstancesTrace_tx (cancelExit : Bool) (toDelete : List Nat)
    (delOk : Nat → Bool) :
    mutationsInTx (identicalInstancesTrace cancelExit toDelete delOk) = true := by
  unfold identicalInstancesTrace mutationsInTx
  refine isSome_of_eq (b := false) ?_
  apply scanTx_dialog_cons
  simp only [List.append_eq, List.nil_append]
  refine scanTx_ite_closed scanTx_nil ?_
  refine scanTx_append_closed ?_ ?_
  · refine scanTx_ite_closed ?_ scanTx_nil
    refine scanTx_append_closed ?_ ?_
    · refine scanTx_txBlock_closed ?_
      intro e he
      unfold identicalInstancesDeleteEvents at he
      obtain ⟨i, _, rfl⟩ := List.mem_map.mp he
      split_ifs <;> rfl
    · refine scanTx_ite_closed ?_ scanTx_nil
      rfl
  · rfl

lemma deleteViewsTrace_tx (sel : List VInfo) (delOk : Nat → Bool)
    (tmplUnused : List Nat) (tmplYes : Bool) :
    mutationsInTx (deleteViewsTrace sel delOk tmplUnused tmplYes) = true := by
  unfold deleteViewsTrace mutationsInTx
  refine scanTx_ite_closed_isSome rfl ?_
  refine isSome_of_eq (b := false) ?_
  refine scanTx_append_closed (scanTx_append_closed ?_ ?_) ?_
  · refine scanTx_txBlock_closed ?_
    exact plain_append (plain_map_ifML (fun v => delOk v.id) (classifyViews sel).1)
      plain_one_dialog
  · refine scanTx_ite_closed ?_ scanTx_nil
    apply scanTx_dialog_cons
    simp only [List.append_eq, List.nil_append]
    refine scanTx_ite_closed ?_ scanTx_nil
    exact scanTx_txBlock_closed (plain_map_mut _)
  · exact scanTx_map_note _ false

lemma deleteLegendsMain_tx (selected : List Nat) (confirmYes : Bool) :
    scanTx (deleteLegendsMain selected confirmYes) false = some false := by
  unfold deleteLegendsMain
  apply scanTx_dialog_cons
  simp only [List.append_eq, List.nil_append]
  refine scanTx_ite_closed ?_ scanTx_nil
  apply scanTx_dialog_cons
  simp only [List.append_eq, List.nil_append]
  refine scanTx_ite_closed ?_ scanTx_nil
  refine scanTx_append_closed ?_ ?_
  · exact scanTx_txBlock_closed (plain_map_mut _)
  · rfl

lemma deleteLegendsTrace_tx (selEmpty selectAllYes anyLegends : Bool)
    (selected : List Nat) (confirmYes : Bool) :
    mutationsInTx (deleteLegendsTrace selEmpty selectAllYes anyLegends selected
      confirmYes) = true := by
  unfold deleteLegendsTrace mutationsInTx
  split_ifs <;> refine isSome_of_eq (b := false) ?_ <;>
    first
      | rfl
      | exact deleteLegendsMain_tx _ _
      | exact scanTx_dialog_cons (deleteLegendsMain_tx _ _)

lemma deleteSchedulesTrace_tx (selEmpty selectAllYes : Bool) (selected : List Nat)
    (confirmYes : Bool) :
    mutationsInTx (deleteSchedulesTrace selEmpty selectAllYes selected confirmYes) =
      true := by
  unfold deleteSchedulesTrace mutationsInTx
  refine isSome_of_eq (b := false) ?_
  refine scanTx_append_closed (scanTx_append_closed ?_ ?_) ?_
  · exact scanTx_ite_closed rfl scanTx_nil
  · rfl
  · refine scanTx_ite_closed ?_ scanTx_nil
    apply scanTx_dialog_cons
    simp only [List.append_eq, List.nil_append]
    refine scanTx_ite_closed ?_ rfl
    refine scanTx_append_closed ?_ ?_
    · exact scanTx_txBlock_closed (plain_map_mut _)
    · rfl

lemma deleteSheetsTrace_tx (selEmpty anyToggled : Bool) (nDel : Nat) : 
    mutationsInTx (deleteSheetsTrace selEmpty anyToggled nDel) = true := by
  unfold deleteSheetsTrace mutationsInTx
  refine scanTx_ite_closed_isSome rfl ?_
  refine isSome_of_eq (b := false) ?_
  refine scanTx_append_closed (scanTx_append_closed ?_ ?_) ?_
  · rfl
  · refine scanTx_ite_closed ?_ scanTx_nil
    exact scanTx_txBlock_closed (plain_replicate nDel Ev.mut rfl)
  · rfl

lemma paramsCleanerTrace_tx (anyParams : Bool) (checked selected : List Nat)
    (delOk : Nat → Bool) :
    mutationsInTx (paramsCleanerTrace anyParams checked selected delOk) = true := by
  unfold paramsCleanerTrace mutationsInTx
  refine scanTx_ite_closed_isSome rfl ?_
  refine isSome_of_eq (b := false) ?_
  apply scanTx_dialog_cons
  simp only [List.append_eq, List.nil_append]
  refine scanTx_ite_closed ?_ rfl
  apply scanTx_dialog_cons
  simp only [List.append_eq, List.nil_append]
  refine scanTx_ite_closed ?_ rfl
  refine scanTx_append_closed ?_ ?_
  · exact scanTx_txBlock_closed (plain_map_ifML delOk selected)
  · exact scanTx_ite_closed rfl rfl

lemma removeUnusedFiltersTrace_tx (selected : List Nat) (nRemoved : Nat → Nat) :
    mutationsInTx (removeUnusedFiltersTrace selected nRemoved) = true := by
  unfold removeUnusedFiltersTrace mutationsInTx
  refine isSome_of_eq (b := false) ?_
  apply scanTx_dialog_cons
  simp only [List.append_eq, List.nil_append]
  refine scanTx_ite_closed ?_ scanTx_nil
  refine scanTx_append_closed ?_ ?_
  · refine scanTx_txBlock_closed ?_
    refine plain_flatten (fun l hl => ?_)
    obtain ⟨v, _, rfl⟩ := List.mem_map.mp hl
    exact plain_replicate (nRemoved v) Ev.mut rfl
  · rfl

lemma worksetViews_body_plain (oldViews : Nat) (delOldYes : Bool) (ops : Nat) :
    ∀ e ∈ (if 0 < oldViews then
        Ev.dialog :: (if delOldYes then List.replicate oldViews Ev.mut else [])
      else []) ++ List.replicate ops Ev.mut, isPlain e = true := by
  refine plain_append ?_ (plain_replicate _ _ rfl)
  intro e he
  by_cases h0 : 0 < oldViews
  · rw [if_pos h0] at he
    rcases List.mem_cons.mp he with rfl | h
    · rfl
    · by_cases h1 : delOldYes = true
      · rw [if_pos h1] at h
        exact plain_replicate oldViews Ev.mut rfl e h
      · rw [if_neg h1] at h
        simp at h
  · rw [if_neg h0] at he
    simp at he

lemma worksetViewsTrace_tx (noWorksets tmplChosen : Bool) (oldViews : Nat)
    (delOldYes : Bool) (ops : Nat) (finalMsg : Bool) :
    mutationsInTx (worksetViewsTrace noWorksets tmplChosen oldViews delOldYes ops
      finalMsg) = true := by
  unfold worksetViewsTrace mutationsInTx
  refine scanTx_ite_closed_isSome rfl ?_
  refine isSome_of_eq (b := false) ?_
  apply scanTx_dialog_cons
  simp only [List.append_eq, List.nil_append]
  refine scanTx_ite_closed ?_ scanTx_nil
  refine scanTx_append_closed ?_ ?_
  · exact scanTx_txBlock_closed (worksetViews_body_plain oldViews delOldYes ops)
  · exact scanTx_ite_closed rfl scanTx_nil

lemma addSizeTrace_tx (types : List Bool) :
    mutationsInTx (addSizeTrace types) = true := by
  unfold addSizeTrace mutationsInTx
  refine isSome_of_eq (b := false) ?_
  apply scanTx_dialog_cons
  exact scanTx_txBlock_closed (plain_map_ifMN (fun b => b) types)

lemma mergeTopoSolidsTrace_tx (pickOk created delYes : Bool) (n : Nat) :
    mutationsInTx (mergeTopoSolidsTrace pickOk created delYes n) = true := by
  unfold mergeTopoSolidsTrace mutationsInTx
  split_ifs <;> (try rfl) <;> refine isSome_of_eq (b := false) ?_ <;>
    refine scanTx_txBlock_closed ?_ <;>
    first
      | decide
      | (intro e he
         rcases List.mem_cons.mp he with rfl | h
         · rfl
         · rcases List.mem_cons.mp h with rfl | h2
           · rfl
           · rcases List.mem_cons.mp h2 with rfl | h3
             · rfl
             · exact plain_replicate n Ev.mut rfl e h3)

lemma toTopoSurfaceTrace_tx (pickOk created : Bool) :
    mutationsInTx (toTopoSurfaceTrace pickOk created) = true := by
  unfold toTopoSurfaceTrace mutationsInTx
  split_ifs <;> (try rfl) <;> refine isSome_of_eq (b := false) ?_ <;>
    refine scanTx_txBlock_closed ?_ <;> decide

/-! ### C3, C4, C8, C9: error handling, transactions, dialogs, empty runs -/

/-- Events occurring while no transaction is open. -/
def eventsOutsideTxAux : List Ev → Bool → List Ev
  | [], _ => []
  | Ev.txOpen :: r, _ => eventsOutsideTxAux r true
  | Ev.txCommit :: r, _ => eventsOutsideTxAux r false
  | Ev.txRollback :: r, _ => eventsOutsideTxAux r false
  | e :: r, b => (if b then [] else [e]) ++ eventsOutsideTxAux r b

def eventsOutsideTx (t : List Ev) : List Ev := eventsOutsideTxAux t false

/-- Identical Instances, deletion loop (lines 299-312): each `doc.Delete` is
wrapped in try/except; a success appends the id to `DELETED`, a failure is
logged and the loop continues with the next id. -/
def identicalDeleteFold (delOk : Nat → Bool) (ids : List Nat) :
    List Nat × List Nat :=
  ids.foldl
    (fun acc i =>
      if delOk i then (acc.1 ++ [i], acc.2) else (acc.1, acc.2 ++ [i]))
    ([], [])

/-- Identical Instances, lines 313-316: `if len(DELETED) > 1: forms.alert(...)
elif len(DELETED) == 1: forms.alert(...)` — no alert otherwise. -/
def identicalAlertShown (deleted : List Nat) : Bool :=
  if 1 < deleted.length then true
  else if deleted.length == 1 then true
  else false

lemma identicalDeleteFold_go (delOk : Nat → Bool) (ids : List Nat) :
    ∀ d f : List Nat,
      ids.foldl
        (fun acc i =>
          if delOk i then (acc.1 ++ [i], acc.2) else (acc.1, acc.2 ++ [i]))
        (d, f) =
      (d ++ ids.filter delOk, f ++ ids.filter (fun i => !delOk i)) := by
  induction ids with
  | nil => intro d f; simp
  | cons i r ih =>
    intro d f
    by_cases h : delOk i = true <;>
      simp [h, List.filter_cons, ih, List.append_assoc]

lemma identicalAlertShown_iff (l : List Nat) :
    identicalAlertShown l = decide (1 ≤ l.length) := by
  unfold identicalAlertShown
  cases l with
  | nil => rfl
  | cons a r =>
    cases r with
    | nil => rfl
    | cons b t =>
      have h1 : 1 < (a :: b :: t).length := by
        simp only [List.length_cons]
        omega
      rw [if_pos h1]
      exact (decide_eq_true (Nat.le_of_lt h1)).symm

lemma purgeImagesLoop_no_log (delOk : Nat → Bool) (l : List Nat) :
    Ev.log ∉ purgeImagesLoop delOk l := by
  induction l with
  | nil => simp [purgeImagesLoop]
  | cons i r ih =>
    unfold purgeImagesLoop
    split_ifs
    · intro h
      rcases List.mem_cons.mp h with h2 | h2
      · exact Ev.noConfusion h2
      · exact ih h2
    · simp

/-- C3 (amended): the error handling is per script, not uniform.  Identical
Instances wraps each delete in try/except — every id is attempted, successes
and logged failures are collected separately — but its final alert appears
only when at least one element was actually deleted.  Purge Images has no
per-element try/except (its loop stops at the first failing delete, the
remaining images untouched) and never calls the logger.  Delete Views always
shows its count alert when a valid selection exists. -/
theorem per_element_error_handling :
    (∀ (delOk : Nat → Bool) (ids : List Nat),
      identicalDeleteFold delOk ids =
        (ids.filter delOk, ids.filter (fun i => !delOk i))) ∧
    (∀ (delOk : Nat → Bool) (ids : List Nat),
      identicalAlertShown (identicalDeleteFold delOk ids).1 =
        decide (1 ≤ (ids.filter delOk).length)) ∧
    (∀ (delOk : Nat → Bool) (pre : List Nat) (i : Nat) (post : List Nat),
      delOk i = false → (∀ j ∈ pre, delOk j = true) →
      purgeImagesLoop delOk (pre ++ i :: post) =
        pre.map (fun _ => Ev.mut) ++ [Ev.fail]) ∧
    (∀ (purge : Bool) (images : List Nat) (delOk : Nat → Bool),
      Ev.log ∉ purgeImagesTrace purge images delOk) ∧
    (∀ (sel : List VInfo) (delOk : Nat → Bool) (tu : List Nat) (ty : Bool),
      sel ≠ [] → Ev.dialog ∈ deleteViewsTrace sel delOk tu ty) := by
  refine ⟨?_, ?_, ?_, ?_, ?_⟩
  · intro delOk ids
    unfold identicalDeleteFold
    simpa using identicalDeleteFold_go delOk ids [] []
  · intro delOk ids
    unfold identicalDeleteFold
    rw [identicalDeleteFold_go delOk ids [] []]
    simpa using identicalAlertShown_iff (ids.filter delOk)
  · intro delOk pre i post hi hpre
    induction pre with
    | nil => simp [purgeImagesLoop, hi]
    | cons a r ih =>
      have ha := hpre a (by simp)
      simp only [List.cons_append, purgeImagesLoop, ha, if_pos, List.map_cons,
        List.append_eq]
      rw [ih (fun j hj => hpre j (List.mem_cons_of_mem a hj))]
  · intro purge images delOk hmem
    unfold purgeImagesTrace at hmem
    rcases List.mem_append.mp hmem with h | h
    · simp at h
    · by_cases hp : purge = true
      · rw [if_pos hp] at h
        rcases List.mem_append.mp h with h2 | h2
        · rcases List.mem_append.mp h2 with h3 | h3
          · simp at h3
          · exact purgeImagesLoop_no_log delOk images h3
        · split_ifs at h2 <;> simp at h2
      · rw [if_neg hp] at h
        simp at h
  · intro sel delOk tu ty h
    unfold deleteViewsTrace
    rw [if_neg h]
    simp [txBlock]

/-- C3 witness: the hypotheses of the purge-loop and delete-views conjuncts
hold at a concrete input and the conclusions evaluate as stated. -/
theorem per_element_error_handling_witness :
    ((fun n => decide (n ≠ 10)) 10 = false ∧
      purgeImagesLoop (fun n => decide (n ≠ 10)) ([5] ++ 10 :: [20]) =
        [5].map (fun _ => Ev.mut) ++ [Ev.fail]) ∧
    (([⟨1, false, []⟩] : List VInfo) ≠ [] ∧
      Ev.dialog ∈ deleteViewsTrace [⟨1, false, []⟩] (fun _ => true) [] false) :=
  ⟨⟨by decide,
    per_element_error_handling.2.2.1 (fun n => decide (n ≠ 10)) [5] 10 [20]
      (by decide) (by decide)⟩,
   ⟨by simp,
    per_element_error_handling.2.2.2.2 [⟨1, false, []⟩] (fun _ => true) [] false
      (by simp)⟩⟩

/-- C3 counterexample: Purge Images on two images where deleting the first
raises — the transaction context aborts at the failure, the second image is
never attempted (`count Ev.mut = 0`), nothing is logged, and no summary
dialog follows. -/
theorem purge_images_aborts_on_first_failure :
    purgeImagesTrace true [10, 20] (fun i => !(i == 10)) =
      [Ev.dialog, Ev.txOpen, Ev.fail, Ev.txRollback] ∧
    (purgeImagesTrace true [10, 20] (fun i => !(i == 10))).count Ev.mut = 0 ∧
    Ev.log ∉ purgeImagesTrace true [10, 20] (fun i => !(i == 10)) := by
  decide

/-- C4 (amended): in every script trace each model mutation — element
deletion, parameter set, workset creation or deletion — lies inside an open
transaction; the one exception is RVT Link Worksets' `EnableWorksharing`
call (lines 36-45), which converts the document and creates its two initial
worksets outside any transaction. -/
theorem all_mutations_within_transactions :
    (∀ purge images delOk, mutationsInTx (purgeImagesTrace purge images delOk) = true) ∧
    (∀ grids levels, mutationsInTx (pinLinksAndGridsTrace grids levels) = true) ∧
    (∀ elems settable, mutationsInTx (idTagNumberTrace elems settable) = true) ∧
    (∀ a w c i sel ws, mutationsInTx (cadWorksetsTrace a w c i sel ws) = true) ∧
    (∀ a w c e v sel u d,
      mutationsInTx (rvtLinkWorksetsTrace a w c e v sel u d) = true) ∧
    (∀ ce td delOk, mutationsInTx (identicalInstancesTrace ce td delOk) = true) ∧
    (∀ sel delOk tu ty, mutationsInTx (deleteViewsTrace sel delOk tu ty) = true) ∧
    (∀ se sa al sel cy,
      mutationsInTx (deleteLegendsTrace se sa al sel cy) = true) ∧
    (∀ se sa sel cy, mutationsInTx (deleteSchedulesTrace se sa sel cy) = true) ∧
    (∀ se tg n, mutationsInTx (deleteSheetsTrace se tg n) = true) ∧
    (∀ ap ch sel delOk, mutationsInTx (paramsCleanerTrace ap ch sel delOk) = true) ∧
    (∀ sel nr, mutationsInTx (removeUnusedFiltersTrace sel nr) = true) ∧
    (∀ nw tc ov dy ops fm,
      mutationsInTx (worksetViewsTrace nw tc ov dy ops fm) = true) ∧
    (∀ types, mutationsInTx (addSizeTrace types) = true) ∧
    (∀ po cr dy n, mutationsInTx (mergeTopoSolidsTrace po cr dy n) = true) ∧
    (∀ po cr, mutationsInTx (toTopoSurfaceTrace po cr) = true) ∧
    (∀ v sel u d, Ev.enableWS ∈
      eventsOutsideTx (rvtLinkWorksetsTrace true false true true v sel u d)) := by
  refine ⟨purgeImagesTrace_tx, pinLinksAndGridsTrace_tx, idTagNumberTrace_tx,
    cadWorksetsTrace_tx, rvtLinkWorksetsTrace_tx, identicalInstancesTrace_tx,
    deleteViewsTrace_tx, deleteLegendsTrace_tx, deleteSchedulesTrace_tx,
    deleteSheetsTrace_tx, paramsCleanerTrace_tx, removeUnusedFiltersTrace_tx,
    worksetViewsTrace_tx, addSizeTrace_tx, mergeTopoSolidsTrace_tx,
    toTopoSurfaceTrace_tx, ?_⟩
  intro v sel u d
  have h : eventsOutsideTx (rvtLinkWorksetsTrace true false true true v sel u d) =
      Ev.dialog :: Ev.enableWS :: eventsOutsideTxAux (rvtLinkMain v sel u d) false := rfl
  rw [h]
  exact List.mem_cons_of_mem _ (List.mem_cons_self _ _)

/-- C4 counterexample: a run of RVT Link Worksets on a non-workshared
document where the user answers Yes — the whole trace is
`[dialog, enableWS, dialog]`, so the worksharing conversion (which creates
two worksets) happens with no transaction open at all. -/
theorem worksharing_enabled_outside_transaction :
    rvtLinkWorksetsTrace true false true true false [] [] false =
      [Ev.dialog, Ev.enableWS, Ev.dialog] ∧
    eventsOutsideTx (rvtLinkWorksetsTrace true false true true false [] [] false) =
      [Ev.dialog, Ev.enableWS, Ev.dialog] := by
  decide

/-- C8 (amended): the three cited scripts (Purge Images, CAD Worksets,
RVT Link Worksets) do present a dialog before any transaction opens, and in
a run where the user cancels or selects nothing they open no transaction at
all; but the property is not repository-wide — see the counterexample. -/
theorem dialog_before_mutation_in_cited_scripts :
    (∀ purge images delOk,
      dialogBeforeTx (purgeImagesTrace purge images delOk) = true) ∧
    (∀ a w c i sel ws,
      dialogBeforeTx (cadWorksetsTrace a w c i sel ws) = true) ∧
    (∀ a w c e v sel u d,
      dialogBeforeTx (rvtLinkWorksetsTrace a w c e v sel u d) = true) ∧
    (∀ images delOk, purgeImagesTrace false images delOk = [Ev.dialog]) ∧
    (∀ a w c i ws, Ev.txOpen ∉ cadWorksetsTrace a w c i [] ws) ∧
    (∀ a w c e v d, Ev.txOpen ∉ rvtLinkWorksetsTrace a w c e v [] [] d) := by
  refine ⟨?_, ?_, ?_, ?_, ?_, ?_⟩
  · intro purge images delOk
    exact dialogBeforeTx_dialog _
  · intro a w c i sel ws
    unfold cadWorksetsTrace
    split_ifs <;> exact dialogBeforeTx_dialog _
  · intro a w c e v sel u d
    unfold rvtLinkWorksetsTrace rvtLinkMain
    split_ifs <;> exact dialogBeforeTx_dialog _
  · intro images delOk
    rfl
  · decide
  · decide

/-- C8 counterexample: PinLinksAndGrids and Id TagNumber mutate the model
with no dialog anywhere in their run — the transaction opens first and the
mutations follow, so no confirmation or selection dialog precedes the
mutating commit. -/
theorem mutation_without_prior_dialog :
    pinLinksAndGridsTrace [1] [2] = [Ev.txOpen, Ev.mut, Ev.mut, Ev.txCommit] ∧
    dialogBeforeTx (pinLinksAndGridsTrace [1] [2]) = false ∧
    idTagNumberTrace [7] (fun _ => true) = [Ev.txOpen, Ev.mut, Ev.txCommit] ∧
    dialogBeforeTx (idTagNumberTrace [7] (fun _ => true)) = false := by
  decide

/-- C9 (amended): the cited scripts do alert-and-exit on an empty
collection with no transaction and no mutation — CAD Worksets with no CAD
links, RVT Link Worksets with no links, Delete Views with no usable
selection all produce the single-dialog trace; but Purge Images is the
exception recorded in the counterexample. -/
theorem empty_collection_alert_exit :
    (∀ w c i sel ws, cadWorksetsTrace false w c i sel ws = [Ev.dialog]) ∧
    (∀ w c e v sel u d,
      rvtLinkWorksetsTrace false w c e v sel u d = [Ev.dialog]) ∧
    (∀ delOk tu ty, deleteViewsTrace [] delOk tu ty = [Ev.dialog]) :=
  ⟨fun _ _ _ _ _ => rfl, fun _ _ _ _ _ _ _ => rfl, fun _ _ _ => rfl⟩

/-- C9 counterexample: Purge Images asks its question and then opens and
commits its transaction even when the document contains no images at all —
the collector runs inside the transaction, so the document does not stay
untouched-by-transactions on an empty collection, and the exit is a print,
not an alert. -/
theorem purge_images_empty_opens_transaction :
    purgeImagesTrace true [] (fun _ => true) =
      [Ev.dialog, Ev.txOpen, Ev.txCommit, Ev.note] ∧
    Ev.txOpen ∈ purgeImagesTrace true [] (fun _ => true) := by
  decide

end HTRevit
